import Mathlib

/-!
Verification of the EV route-planning core (`src/energy_model.py`,
`src/graph.py`, `src/routing_search.py`, `src/simulator.py`).

The Python code is shallowly embedded: floating point numbers are modelled
as rationals (`ℚ`), pandas DataFrames as Lean lists of records, and the
mutable `networkx` graph as an explicit `Graph` record threaded through the
operations.  The transcendental `haversine_km` cannot be an executable
rational function, so every operation that calls it is parameterised by a
distance function `hav : ℚ → ℚ → ℚ → ℚ → ℚ` standing for `haversine_km`;
likewise `nx.shortest_path_length` (a networkx library routine, not code of
this repository) is abstracted as a function parameter `sp`.
-/

namespace EV

/-- Python's `round(x, 1)`, on rationals.  Python rounds half to even on
floats; this model rounds half away from a lower value (Mathlib `round`),
which agrees except exactly at `.05` boundaries; no claim below depends on
the tie-breaking direction. -/
def round1 (q : ℚ) : ℚ := (round (q * 10) : ℤ) / 10

/-- Python's `round(x, 2)`, on rationals. -/
def round2 (q : ℚ) : ℚ := (round (q * 100) : ℤ) / 100

/-- Python's `round(x, 3)`, on rationals. -/
def round3 (q : ℚ) : ℚ := (round (q * 1000) : ℤ) / 1000

theorem round1_nonneg {q : ℚ} (h : 0 ≤ q) : 0 ≤ round1 q := by
  unfold round1
  have h10 : (0 : ℚ) ≤ q * 10 := by positivity
  have : (0 : ℤ) ≤ round (q * 10) := by
    rw [round_eq]
    exact Int.floor_nonneg.mpr (by linarith)
  positivity

theorem round2_nonneg {q : ℚ} (h : 0 ≤ q) : 0 ≤ round2 q := by
  unfold round2
  have h10 : (0 : ℚ) ≤ q * 100 := by positivity
  have : (0 : ℤ) ≤ round (q * 100) := by
    rw [round_eq]
    exact Int.floor_nonneg.mpr (by linarith)
  positivity

/-! ## `src/energy_model.py` -/

/-- `kwh_needed(distance_km, consumption_kwh_per_100km)`:
`distance_km * consumption_kwh_per_100km / 100.0`. -/
def kwh_needed (distance_km consumption_kwh_per_100km : ℚ) : ℚ :=
  distance_km * consumption_kwh_per_100km / 100

/-- `km_from_percent(percent, battery_kwh_max, consumption_kwh_per_100km)`:
`kwh = battery_kwh_max * percent / 100.0; (kwh / consumption_kwh_per_100km) * 100.0`. -/
def km_from_percent (percent battery_kwh_max consumption_kwh_per_100km : ℚ) : ℚ :=
  let kwh := battery_kwh_max * percent / 100
  kwh / consumption_kwh_per_100km * 100

/-- `charge_time_minutes(power_kw, delta_kwh)`: `delta_kwh / power_kw * 60.0`.
In Python a zero `power_kw` raises `ZeroDivisionError`; every call site in
the search and simulator guards `power_kw > 0` first, so the total division
of `ℚ` (which returns 0) is never exercised at 0. -/
def charge_time_minutes (power_kw delta_kwh : ℚ) : ℚ :=
  delta_kwh / power_kw * 60

/-- The percent-of-battery conversion the search and simulator apply inline:
`(kwh / battery_kwh_max) * 100.0`. -/
def percent_from_kwh (kwh battery_kwh_max : ℚ) : ℚ :=
  kwh / battery_kwh_max * 100

/-- C8: distance → energy (`kwh_needed`) → percent of `battery_kwh_max` →
distance (`km_from_percent`) is the identity for positive fixed consumption
and battery capacity.  Over `ℚ` the round trip is exact. -/
theorem C8_energy_round_trip (d c bmax : ℚ) (hc : 0 < c) (hb : 0 < bmax) :
    km_from_percent (percent_from_kwh (kwh_needed d c) bmax) bmax c = d := by
  unfold km_from_percent percent_from_kwh kwh_needed
  field_simp
  ring

/-- Witness for C8 at `d = 50`, `c = 163/10` (16.3 kWh/100km), `bmax = 60`. -/
theorem C8_energy_round_trip_witness :
    (0 : ℚ) < 163 / 10 ∧ (0 : ℚ) < 60 ∧
      km_from_percent (percent_from_kwh (kwh_needed 50 (163 / 10)) 60) 60 (163 / 10) = 50 :=
  ⟨by norm_num, by norm_num,
    C8_energy_round_trip 50 (163 / 10) 60 (by norm_num) (by norm_num)⟩

/-! ## `src/graph.py` -/

/-- One row of `stations_df` (columns `id`, `name`, `lat`, `lon`, optional
`power_kw`; a missing/NaN power is `none`). -/
structure Station where
  id : String
  name : String
  lat : ℚ
  lon : ℚ
  power_kw : Option ℚ
deriving DecidableEq, Repr

/-- Node attributes stored by `G.add_node(id, name=..., lat=..., lon=...)`. -/
structure NodeData where
  name : String
  lat : ℚ
  lon : ℚ
deriving DecidableEq, Repr

/-- Edge attributes stored by `G.add_edge(...)`. -/
structure EdgeData where
  distance : ℚ
  distance_km : ℚ
  travel_time_h : Option ℚ
  is_highway : Bool
  toll : Bool
deriving DecidableEq, Repr

/-- The mutable `networkx.Graph`, made explicit: insertion-ordered node and
edge lists.  An undirected edge is stored once, in the orientation of the
`add_edge` call that created it. -/
structure Graph where
  nodes : List (String × NodeData)
  edges : List (String × String × EdgeData)
deriving DecidableEq, Repr

def Graph.nodeIds (g : Graph) : List String := g.nodes.map Prod.fst

/-- `node_id in G.nodes`. -/
def Graph.hasNode (g : Graph) (id : String) : Bool := g.nodes.any (·.1 == id)

/-- `G.has_edge(a, b)` (undirected). -/
def Graph.hasEdge (g : Graph) (a b : String) : Bool :=
  g.edges.any (fun e => (e.1 == a && e.2.1 == b) || (e.1 == b && e.2.1 == a))

/-- `G.add_node`: networkx updates the attributes when the id is present,
else appends a fresh node. -/
def Graph.addNode (g : Graph) (id : String) (d : NodeData) : Graph :=
  if g.hasNode id then
    { g with nodes := g.nodes.map (fun p => if p.1 == id then (id, d) else p) }
  else
    { g with nodes := g.nodes ++ [(id, d)] }

/-- `G.add_edge` where both endpoints already exist (true at every call site
of this repository: `build_graph` adds all nodes first, `add_virtual_node`
adds the node before its edges, `add_map_routes` checks membership).
networkx updates the attributes when the undirected edge exists, else
appends it. -/
def Graph.addEdge (g : Graph) (a b : String) (d : EdgeData) : Graph :=
  if g.hasEdge a b then
    { g with
      edges := g.edges.map (fun e =>
        if (e.1 == a && e.2.1 == b) || (e.1 == b && e.2.1 == a) then (e.1, e.2.1, d)
        else e) }
  else
    { g with edges := g.edges ++ [(a, b, d)] }

/-- `G.remove_node`: drops the node and every incident edge. -/
def Graph.removeNode (g : Graph) (id : String) : Graph :=
  { nodes := g.nodes.filter (fun p => p.1 != id),
    edges := g.edges.filter (fun e => e.1 != id && e.2.1 != id) }

/-- First node entry with the given id, as `G.nodes[x]` lookup. -/
def Graph.coordOf (g : Graph) (id : String) : Option (ℚ × ℚ) :=
  (g.nodes.find? (·.1 == id)).map (fun p => (p.2.lat, p.2.lon))

/-- Stable insertion: the new element goes after every existing element
whose key compares `≤`. -/
def insertLe (le : α → α → Bool) (x : α) : List α → List α
  | [] => [x]
  | y :: ys => if le y x then y :: insertLe le x ys else x :: y :: ys

/-- Python's stable ascending `list.sort(key=...)`, as left-to-right stable
insertion. -/
def sortStable (le : α → α → Bool) (l : List α) : List α :=
  l.foldl (fun acc x => insertLe le x acc) []

theorem insertLe_perm (le : α → α → Bool) (x : α) :
    ∀ l : List α, (insertLe le x l).Perm (x :: l) := by
  intro l
  induction l with
  | nil => simp [insertLe]
  | cons y ys ih =>
    unfold insertLe
    by_cases h : le y x = true
    · simp only [h, if_true]
      exact (ih.cons y).trans (List.Perm.swap x y ys)
    · simp [h]

theorem sortStable_perm (le : α → α → Bool) (l : List α) : (sortStable le l).Perm l := by
  suffices h : ∀ (l : List α) (acc : List α),
      (l.foldl (fun acc x => insertLe le x acc) acc).Perm (acc ++ l) by
    simpa using h l []
  intro l
  induction l with
  | nil => simp
  | cons x xs ih =>
    intro acc
    simp only [List.foldl_cons]
    refine ((ih _).trans ?_)
    refine ((insertLe_perm le x acc).append_right xs).trans ?_
    simpa using (@List.perm_middle _ x acc xs).symm

/-- `dist / avg_speed_kmh if avg_speed_kmh > 0 else None`. -/
def travelTime (dist avg_speed_kmh : ℚ) : Option ℚ :=
  if 0 < avg_speed_kmh then some (dist / avg_speed_kmh) else none

/-- The node-adding prefix of `build_graph` ("Add nodes" loop). -/
def buildNodes (stations : List Station) (g : Graph) : Graph :=
  stations.foldl (fun g r => g.addNode r.id ⟨r.name, r.lat, r.lon⟩) g

/-- One iteration of `build_graph`'s k-nearest-neighbour loop (the body of
`for i in range(n)` in the `k_neighbors is not None` branch). -/
def knnStep (hav : ℚ → ℚ → ℚ → ℚ → ℚ) (stations : List Station) (k : ℕ)
    (avg_speed_kmh : ℚ) (g : Graph) (i : Fin stations.length) : Graph :=
  let si := stations.get i
  let dists := (List.finRange stations.length).filterMap (fun j =>
    if j = i then none
    else some (j, hav si.lat si.lon (stations.get j).lat (stations.get j).lon))
  let sorted := sortStable (fun a b => decide (a.2 ≤ b.2)) dists
  (sorted.take k).foldl (fun g jd =>
    let sj := stations.get jd.1
    if g.hasEdge si.id sj.id || g.hasEdge sj.id si.id then g
    else g.addEdge si.id sj.id
      ⟨jd.2, jd.2, travelTime jd.2 avg_speed_kmh, false, false⟩) g

/-- One iteration of `build_graph`'s distance-bound loop (the body of
`for i in range(n)` in the `else` branch; `for j in range(i+1, n)`). -/
def boundStep (hav : ℚ → ℚ → ℚ → ℚ → ℚ) (stations : List Station)
    (max_edge_km avg_speed_kmh : ℚ) (g : Graph) (i : Fin stations.length) : Graph :=
  let si := stations.get i
  ((List.finRange stations.length).filter (fun j => decide (i < j))).foldl (fun g j =>
    let sj := stations.get j
    let dist := hav si.lat si.lon sj.lat sj.lon
    if dist ≤ max_edge_km then
      g.addEdge si.id sj.id ⟨dist, dist, travelTime dist avg_speed_kmh, false, false⟩
    else g) g

/-- `build_graph(stations_df, max_edge_km, k_neighbors, avg_speed_kmh)`,
parameterised by the haversine function `hav`. -/
def build_graph (hav : ℚ → ℚ → ℚ → ℚ → ℚ) (stations : List Station)
    (max_edge_km : ℚ) (k_neighbors : Option ℕ) (avg_speed_kmh : ℚ) : Graph :=
  match k_neighbors with
  | some k =>
    (List.finRange stations.length).foldl (knnStep hav stations k avg_speed_kmh)
      (buildNodes stations ⟨[], []⟩)
  | none =>
    (List.finRange stations.length).foldl (boundStep hav stations max_edge_km avg_speed_kmh)
      (buildNodes stations ⟨[], []⟩)

/-- `add_virtual_node(G, node_id, lat, lon, k_neighbors, max_dist_km,
avg_speed_kmh)`.  Python raises `ValueError` before any mutation when
`node_id` is already a node; the embedding returns `(some message, G)` with
the graph untouched in that case, and `(none, G')` on success. -/
def add_virtual_node (hav : ℚ → ℚ → ℚ → ℚ → ℚ) (g : Graph) (node_id : String)
    (lat lon : ℚ) (k_neighbors : ℕ) (max_dist_km : ℚ) (avg_speed_kmh : ℚ) :
    Option String × Graph :=
  if g.hasNode node_id then
    (some ("Node id '" ++ node_id ++ "' already exists in graph"), g)
  else
    let g1 := g.addNode node_id ⟨node_id, lat, lon⟩
    let dists := g1.nodes.filterMap (fun p =>
      if p.1 == node_id then none
      else
        let d := hav lat lon p.2.lat p.2.lon
        if d ≤ max_dist_km then some (p.1, d) else none)
    let sorted := sortStable (fun a b => decide (a.2 ≤ b.2)) dists
    (none,
      (sorted.take k_neighbors).foldl (fun g nd =>
        g.addEdge node_id nd.1 ⟨nd.2, nd.2, travelTime nd.2 avg_speed_kmh, false, false⟩) g1)

/-- One element of the `routes` list given to `add_map_routes`, with the
dict defaults folded in (`distance_km` defaults to `0.0`; a missing or
falsy `avg_speed_kmh` yields `travel_time_h = None`). -/
structure MapRoute where
  fromId : String
  toId : String
  distance_km : ℚ
  is_highway : Bool
  toll : Bool
  avg_speed_kmh : Option ℚ
deriving DecidableEq, Repr

/-- `add_map_routes(G, routes)`: adds each route's edge with the
caller-supplied `distance_km`, skipping routes whose endpoints are not
both nodes of `G`. -/
def add_map_routes (g : Graph) (routes : List MapRoute) : Graph :=
  routes.foldl (fun g r =>
    if g.hasNode r.fromId && g.hasNode r.toId then
      g.addEdge r.fromId r.toId
        ⟨r.distance_km, r.distance_km,
          (match r.avg_speed_kmh with
            | some v => if v == 0 then none else some (r.distance_km / v)
            | none => none),
          r.is_highway, r.toll⟩
    else g) g

/-- C10: `add_virtual_node` on a graph that already has `node_id` signals
the duplicate-id error before any mutation, leaving the graph exactly
unchanged. -/
theorem C10_add_virtual_node_duplicate_atomic
    (hav : ℚ → ℚ → ℚ → ℚ → ℚ) (g : Graph) (node_id : String)
    (lat lon : ℚ) (k_neighbors : ℕ) (max_dist_km avg_speed_kmh : ℚ)
    (h : g.hasNode node_id = true) :
    add_virtual_node hav g node_id lat lon k_neighbors max_dist_km avg_speed_kmh =
      (some ("Node id '" ++ node_id ++ "' already exists in graph"), g) := by
  unfold add_virtual_node
  simp [h]

/-- Kernel-reducible absolute value on `ℚ` (Mathlib's lattice `|·|` does not
evaluate by `decide`). -/
def qabs (q : ℚ) : ℚ := if Rat.blt q 0 then -q else q

/-- A concrete haversine stand-in used by witnesses: the (symmetric,
non-negative) taxicab distance on coordinates. -/
def havW (lat1 lon1 lat2 lon2 : ℚ) : ℚ := qabs (lat1 - lat2) + qabs (lon1 - lon2)

/-- Two concrete stations for witnesses. -/
def stationsW : List Station :=
  [⟨"A", "A", 0, 0, some 50⟩, ⟨"B", "B", 10, 0, none⟩]

/-- Witness for C10: inserting id "A" into the two-station graph fails and
returns the graph unchanged. -/
theorem C10_add_virtual_node_duplicate_atomic_witness :
    (build_graph havW stationsW 200 (some 1) 60).hasNode "A" = true ∧
      add_virtual_node havW (build_graph havW stationsW 200 (some 1) 60) "A" 3 4 5 200 60 =
        (some ("Node id '" ++ "A" ++ "' already exists in graph"),
          build_graph havW stationsW 200 (some 1) 60) :=
  ⟨by decide,
    C10_add_virtual_node_duplicate_atomic havW (build_graph havW stationsW 200 (some 1) 60)
      "A" 3 4 5 200 60 (by decide)⟩

/-- The edge invariant of the spec: the edge joins two distinct nodes and
its `distance` attribute equals the haversine distance of their coordinates
(exact over `ℚ`; the spec's floating-point tolerance is not needed). -/
def edgeOkB (hav : ℚ → ℚ → ℚ → ℚ → ℚ) (g : Graph) (e : String × String × EdgeData) : Bool :=
  (e.1 != e.2.1) &&
    (match g.coordOf e.1, g.coordOf e.2.1 with
      | some cu, some cv => e.2.2.distance == hav cu.1 cu.2 cv.1 cv.2
      | _, _ => false)

/-- Every edge of the graph satisfies the spec's edge invariant. -/
def havInvariant (hav : ℚ → ℚ → ℚ → ℚ → ℚ) (g : Graph) : Prop :=
  ∀ e ∈ g.edges, edgeOkB hav g e = true

instance (hav : ℚ → ℚ → ℚ → ℚ → ℚ) (g : Graph) : Decidable (havInvariant hav g) :=
  List.decidableBAll (fun e => edgeOkB hav g e = true) g.edges

/-- C3 counterexample: `add_map_routes` stores the caller-supplied
`distance_km` (999 here, while the distance between "A" and "B" is 10) and
happily adds a self-loop ("A"→"A"), so the claimed invariant fails on a
graph mutated by `add_map_routes`. -/
theorem C3_counterexample :
    ¬ havInvariant havW
      (add_map_routes (build_graph havW stationsW 200 (some 1) 60)
        [⟨"A", "B", 999, false, false, none⟩, ⟨"A", "A", 5, false, false, none⟩]) := by
  with_unfolding_all decide

theorem foldl_preserve {α β : Type} {P : β → Prop} (step : β → α → β) :
    ∀ (l : List α) (g : β), P g → (∀ g x, x ∈ l → P g → P (step g x)) →
      P (l.foldl step g) := by
  intro l
  induction l with
  | nil => intro g hg _; simpa using hg
  | cons x xs ih =>
    intro g hg hstep
    simp only [List.foldl_cons]
    exact ih _ (hstep g x (List.mem_cons_self x xs) hg)
      (fun g y hy => hstep g y (List.mem_cons_of_mem x hy))

theorem addEdge_nodes (g : Graph) (a b : String) (d : EdgeData) :
    (g.addEdge a b d).nodes = g.nodes := by
  unfold Graph.addEdge
  split <;> rfl

theorem coordOf_addEdge (g : Graph) (a b : String) (d : EdgeData) (x : String) :
    (g.addEdge a b d).coordOf x = g.coordOf x := by
  unfold Graph.coordOf
  rw [addEdge_nodes]

theorem edgeOkB_addEdge (hav : ℚ → ℚ → ℚ → ℚ → ℚ) (g : Graph) (a b : String)
    (d : EdgeData) (e : String × String × EdgeData) :
    edgeOkB hav (g.addEdge a b d) e = edgeOkB hav g e := by
  unfold edgeOkB
  rw [coordOf_addEdge, coordOf_addEdge]

theorem addEdge_havInv {hav : ℚ → ℚ → ℚ → ℚ → ℚ}
    (hsym : ∀ a b c d, hav a b c d = hav c d a b)
    {g : Graph} {a b : String} {d : EdgeData} {ca cb : ℚ × ℚ}
    (hinv : havInvariant hav g)
    (hca : g.coordOf a = some ca) (hcb : g.coordOf b = some cb)
    (hd : d.distance = hav ca.1 ca.2 cb.1 cb.2) (hne : a ≠ b) :
    havInvariant hav (g.addEdge a b d) := by
  intro e he
  rw [edgeOkB_addEdge]
  unfold Graph.addEdge at he
  split at he
  · -- update branch: `e` is an image of an existing edge
    simp only [List.mem_map] at he
    obtain ⟨e₀, he₀, rfl⟩ := he
    have hold := hinv e₀ he₀
    by_cases hm : ((e₀.1 == a && e₀.2.1 == b) || (e₀.1 == b && e₀.2.1 == a)) = true
    · simp only [hm, if_true]
      simp only [Bool.or_eq_true, Bool.and_eq_true, beq_iff_eq] at hm
      unfold edgeOkB at hold ⊢
      rcases hm with ⟨h1, h2⟩ | ⟨h1, h2⟩
      · simp only [h1, h2, hca, hcb]
        simp only [h1, h2] at hold
        simp only [Bool.and_eq_true, bne_iff_ne, ne_eq] at hold ⊢
        exact ⟨hold.1, by simp [hd]⟩
      · simp only [h1, h2, hca, hcb]
        simp only [h1, h2] at hold
        simp only [Bool.and_eq_true, bne_iff_ne, ne_eq] at hold ⊢
        refine ⟨hold.1, ?_⟩
        simp only [beq_iff_eq]
        rw [hd]
        exact hsym ca.1 ca.2 cb.1 cb.2
    · simp only [hm, if_false]
      exact hinv e₀ he₀
  · -- append branch
    rcases List.mem_append.mp he with h | h
    · exact hinv e h
    · simp only [List.mem_singleton] at h
      subst h
      unfold edgeOkB
      simp only [hca, hcb, Bool.and_eq_true, bne_iff_ne, ne_eq]
      exact ⟨hne, by simp [hd]⟩

theorem hasNode_false_find? {g : Graph} {nid : String} (h : g.hasNode nid = false) :
    g.nodes.find? (·.1 == nid) = none := by
  have h' : g.nodes.any (fun p => p.1 == nid) = false := h
  rw [List.find?_eq_none]
  intro p hp
  exact List.any_eq_false.mp h' p hp

theorem coordOf_addNode_fresh {g : Graph} {nid : String} (d : NodeData)
    (h : g.hasNode nid = false) (x : String) :
    (g.addNode nid d).coordOf x =
      if x = nid then some (d.lat, d.lon) else g.coordOf x := by
  unfold Graph.addNode
  rw [h]
  simp only [Bool.false_eq_true, if_false]
  unfold Graph.coordOf
  rw [List.find?_append]
  by_cases hx : x = nid
  · subst hx
    rw [hasNode_false_find? h]
    simp
  · have hbeq : ((nid, d).1 == x) = false := by simpa using Ne.symm hx
    have : List.find? (·.1 == x) [(nid, d)] = none := by
      simp [List.find?, hbeq]
    rw [this]
    simp [hx]

theorem coordOf_ne_of_not_hasNode {g : Graph} {nid x : String} {c : ℚ × ℚ}
    (h : g.hasNode nid = false) (hc : g.coordOf x = some c) : x ≠ nid := by
  unfold Graph.coordOf at hc
  obtain ⟨p, hp⟩ := Option.map_eq_some'.mp hc
  have hmem := List.mem_of_find?_eq_some hp.1
  have hpx : p.1 = x := by simpa using List.find?_some hp.1
  have h' : g.nodes.any (fun p => p.1 == nid) = false := h
  have := List.any_eq_false.mp h' p hmem
  simp only [beq_iff_eq] at this
  rw [← hpx]
  exact this

theorem havInvariant_addNode_fresh {hav : ℚ → ℚ → ℚ → ℚ → ℚ} {g : Graph}
    {nid : String} (d : NodeData) (h : g.hasNode nid = false)
    (hinv : havInvariant hav g) : havInvariant hav (g.addNode nid d) := by
  intro e he
  have hedges : (g.addNode nid d).edges = g.edges := by
    unfold Graph.addNode
    split <;> rfl
  rw [hedges] at he
  have hold := hinv e he
  unfold edgeOkB at hold ⊢
  cases hc1 : g.coordOf e.1 with
  | none => simp [hc1] at hold
  | some cu =>
    cases hc2 : g.coordOf e.2.1 with
    | none => simp [hc1, hc2] at hold
    | some cv =>
      have h1 : e.1 ≠ nid := coordOf_ne_of_not_hasNode h hc1
      have h2 : e.2.1 ≠ nid := coordOf_ne_of_not_hasNode h hc2
      rw [coordOf_addNode_fresh d h, coordOf_addNode_fresh d h]
      simp only [h1, h2, if_false]
      rw [hc1, hc2]
      rw [hc1, hc2] at hold
      exact hold

theorem find?_of_nodup_mem : ∀ {l : List (String × NodeData)},
    (l.map Prod.fst).Nodup → ∀ {p : String × NodeData}, p ∈ l →
      l.find? (·.1 == p.1) = some p := by
  intro l
  induction l with
  | nil => intro _ p hp; cases hp
  | cons q qs ih =>
    intro hnd p hp
    simp only [List.map_cons, List.nodup_cons] at hnd
    rcases List.mem_cons.mp hp with h | h
    · subst h
      rw [List.find?_cons_of_pos _ (by simp)]
    · have hq : (q.1 == p.1) = false := by
        simp only [beq_eq_false_iff_ne, ne_eq]
        intro hcontra
        have hmem : p.1 ∈ qs.map Prod.fst := List.mem_map_of_mem Prod.fst h
        rw [← hcontra] at hmem
        exact hnd.1 hmem
      simp only [List.find?, hq]
      exact ih hnd.2 h

theorem qabs_eq_abs (q : ℚ) : qabs q = |q| := by
  unfold qabs
  by_cases h : q < 0
  · rw [if_pos (show Rat.blt q 0 = true from h), abs_of_neg h]
  · rw [if_neg (show ¬ Rat.blt q 0 = true from h), abs_of_nonneg (not_lt.mp h)]

theorem havW_symm (a b c d : ℚ) : havW a b c d = havW c d a b := by
  unfold havW
  rw [qabs_eq_abs, qabs_eq_abs, qabs_eq_abs, qabs_eq_abs, abs_sub_comm,
    abs_sub_comm b d]

theorem coordOf_eq_of_nodes {g h : Graph} (hn : g.nodes = h.nodes) (x : String) :
    g.coordOf x = h.coordOf x := by
  unfold Graph.coordOf
  rw [hn]

theorem addNode_edges (g : Graph) (id : String) (d : NodeData) :
    (g.addNode id d).edges = g.edges := by
  unfold Graph.addNode
  split <;> rfl

theorem addNode_nodes_fresh {g : Graph} {id : String} (d : NodeData)
    (h : g.hasNode id = false) : (g.addNode id d).nodes = g.nodes ++ [(id, d)] := by
  unfold Graph.addNode
  rw [h]
  simp

theorem buildNodes_edges : ∀ (stations : List Station) (g : Graph),
    (buildNodes stations g).edges = g.edges := by
  intro stations
  induction stations with
  | nil => intro g; rfl
  | cons r rest ih =>
    intro g
    unfold buildNodes at *
    simp only [List.foldl_cons]
    rw [ih, addNode_edges]

theorem buildNodes_nodes : ∀ (stations : List Station) (g : Graph),
    (∀ r ∈ stations, g.hasNode r.id = false) →
    (stations.map (fun s => s.id)).Nodup →
    (buildNodes stations g).nodes =
      g.nodes ++ stations.map (fun r => (r.id, (⟨r.name, r.lat, r.lon⟩ : NodeData))) := by
  intro stations
  induction stations with
  | nil => intro g _ _; simp [buildNodes]
  | cons r rest ih =>
    intro g hfresh hnd
    simp only [List.map_cons, List.nodup_cons] at hnd
    have hgr : g.hasNode r.id = false := hfresh r (List.mem_cons_self r rest)
    have hnodes := addNode_nodes_fresh (g := g) (⟨r.name, r.lat, r.lon⟩ : NodeData) hgr
    unfold buildNodes
    simp only [List.foldl_cons]
    have hfresh' : ∀ r' ∈ rest, (g.addNode r.id ⟨r.name, r.lat, r.lon⟩).hasNode r'.id = false := by
      intro r' hr'
      have h1 : g.hasNode r'.id = false := hfresh r' (List.mem_cons_of_mem r hr')
      have h2 : r.id ≠ r'.id := by
        intro hc
        exact hnd.1 (hc ▸ List.mem_map_of_mem (fun s => s.id) hr')
      unfold Graph.hasNode at h1 ⊢
      rw [hnodes, List.any_append]
      simp only [h1, Bool.false_or, List.any_cons, List.any_nil, Bool.or_false]
      simpa using h2
    have := ih (g.addNode r.id ⟨r.name, r.lat, r.lon⟩) hfresh' hnd.2
    unfold buildNodes at this
    rw [this, hnodes]
    simp

theorem coordOf_buildNodes {stations : List Station}
    (hnd : (stations.map (fun s => s.id)).Nodup) {s : Station} (hs : s ∈ stations) :
    (buildNodes stations ⟨[], []⟩).coordOf s.id = some (s.lat, s.lon) := by
  have hfresh : ∀ r ∈ stations, (Graph.mk [] []).hasNode r.id = false := by
    intro r _; rfl
  have hnodes := buildNodes_nodes stations ⟨[], []⟩ hfresh hnd
  have hmem : (s.id, (⟨s.name, s.lat, s.lon⟩ : NodeData)) ∈ (buildNodes stations ⟨[], []⟩).nodes := by
    rw [hnodes]
    simp only [List.nil_append]
    exact List.mem_map_of_mem _ hs
  have hnd' : ((buildNodes stations ⟨[], []⟩).nodes.map Prod.fst).Nodup := by
    rw [hnodes]
    simp only [List.nil_append, List.map_map]
    exact hnd
  have := find?_of_nodup_mem hnd' hmem
  unfold Graph.coordOf
  rw [this]
  rfl

theorem ids_get_ne {stations : List Station}
    (hnd : (stations.map (fun s => s.id)).Nodup)
    {i j : Fin stations.length} (hij : i ≠ j) :
    (stations.get i).id ≠ (stations.get j).id := by
  intro hcontra
  apply hij
  rw [List.nodup_iff_injective_get] at hnd
  have hlen := List.length_map stations (fun s => s.id)
  have h1 : (stations.map (fun s => s.id)).get (Fin.cast hlen.symm i) = (stations.get i).id := by
    simp [List.get_map]
  have h2 : (stations.map (fun s => s.id)).get (Fin.cast hlen.symm j) = (stations.get j).id := by
    simp [List.get_map]
  have := hnd (h1.trans (hcontra.trans h2.symm))
  simpa [Fin.ext_iff] using this

/-- build_graph preserves the haversine edge invariant (amended C3, part 1). -/
theorem build_graph_havInv {hav : ℚ → ℚ → ℚ → ℚ → ℚ}
    (hsym : ∀ a b c d, hav a b c d = hav c d a b)
    (stations : List Station) (max_edge_km : ℚ) (k_neighbors : Option ℕ)
    (avg_speed_kmh : ℚ) (hnd : (stations.map (fun s => s.id)).Nodup) :
    havInvariant hav (build_graph hav stations max_edge_km k_neighbors avg_speed_kmh) := by
  have hfresh : ∀ r ∈ stations, (Graph.mk [] []).hasNode r.id = false := fun r _ => rfl
  have hg0inv : havInvariant hav (buildNodes stations ⟨[], []⟩) := by
    intro e he
    rw [buildNodes_edges] at he
    cases he
  set g0 := buildNodes stations ⟨[], []⟩ with hg0
  have hP : ∀ (g : Graph) (i j : Fin stations.length), i ≠ j →
      g.nodes = g0.nodes → havInvariant hav g →
      havInvariant hav (g.addEdge (stations.get i).id (stations.get j).id
        ⟨hav (stations.get i).lat (stations.get i).lon (stations.get j).lat (stations.get j).lon,
          hav (stations.get i).lat (stations.get i).lon (stations.get j).lat (stations.get j).lon,
          travelTime (hav (stations.get i).lat (stations.get i).lon (stations.get j).lat
            (stations.get j).lon) avg_speed_kmh, false, false⟩) := by
    intro g i j hij hn hinv
    have hci : g.coordOf (stations.get i).id = some ((stations.get i).lat, (stations.get i).lon) := by
      rw [coordOf_eq_of_nodes hn]
      exact coordOf_buildNodes hnd (stations.get_mem i.1 i.2)
    have hcj : g.coordOf (stations.get j).id = some ((stations.get j).lat, (stations.get j).lon) := by
      rw [coordOf_eq_of_nodes hn]
      exact coordOf_buildNodes hnd (stations.get_mem j.1 j.2)
    exact addEdge_havInv hsym hinv hci hcj rfl (ids_get_ne hnd hij)
  cases k_neighbors with
  | some k =>
    show havInvariant hav ((List.finRange stations.length).foldl
      (knnStep hav stations k avg_speed_kmh) g0)
    refine (foldl_preserve (P := fun g => g.nodes = g0.nodes ∧ havInvariant hav g)
      _ (List.finRange stations.length) g0 ⟨rfl, hg0inv⟩ ?_).2
    intro g i _ hPg
    unfold knnStep
    refine foldl_preserve (P := fun g => g.nodes = g0.nodes ∧ havInvariant hav g) _ _ g hPg ?_
    intro g' jd hjd hPg'
    have hjd' : jd ∈ (List.finRange stations.length).filterMap (fun j =>
        if j = i then none
        else some (j, hav (stations.get i).lat (stations.get i).lon
          (stations.get j).lat (stations.get j).lon)) :=
      (sortStable_perm _ _).subset (List.take_subset _ _ hjd)
    obtain ⟨j, _, hj⟩ := List.mem_filterMap.mp hjd'
    by_cases hji : j = i
    · rw [if_pos hji] at hj; cases hj
    · rw [if_neg hji] at hj
      obtain rfl := Option.some.inj hj
      dsimp only
      split
      · exact hPg'
      · exact ⟨(addEdge_nodes _ _ _ _).trans hPg'.1,
          hP g' i j (Ne.symm hji) hPg'.1 hPg'.2⟩
  | none =>
    show havInvariant hav ((List.finRange stations.length).foldl
      (boundStep hav stations max_edge_km avg_speed_kmh) g0)
    refine (foldl_preserve (P := fun g => g.nodes = g0.nodes ∧ havInvariant hav g)
      _ (List.finRange stations.length) g0 ⟨rfl, hg0inv⟩ ?_).2
    intro g i _ hPg
    unfold boundStep
    refine foldl_preserve (P := fun g => g.nodes = g0.nodes ∧ havInvariant hav g) _ _ g hPg ?_
    intro g' j hjmem hPg'
    have hij : i ≠ j := by
      have := (List.mem_filter.mp hjmem).2
      simp only [decide_eq_true_eq] at this
      exact ne_of_lt this
    dsimp only
    split
    · exact ⟨(addEdge_nodes _ _ _ _).trans hPg'.1, hP g' i j hij hPg'.1 hPg'.2⟩
    · exact hPg'

/-- add_virtual_node preserves the haversine edge invariant
(amended C3, part 2). -/
theorem add_virtual_node_havInv {hav : ℚ → ℚ → ℚ → ℚ → ℚ}
    (hsym : ∀ a b c d, hav a b c d = hav c d a b)
    (g : Graph) (nid : String) (lat lon : ℚ) (k : ℕ) (maxd avg : ℚ)
    (hinv : havInvariant hav g) (hnd : g.nodeIds.Nodup) :
    havInvariant hav (add_virtual_node hav g nid lat lon k maxd avg).2 := by
  unfold add_virtual_node
  by_cases hdup : g.hasNode nid = true
  · simpa [hdup] using hinv
  · have hdup' : g.hasNode nid = false := by simpa using hdup
    simp only [hdup', Bool.false_eq_true, if_false]
    set g1 := g.addNode nid ⟨nid, lat, lon⟩ with hg1
    have hinv1 : havInvariant hav g1 := havInvariant_addNode_fresh _ hdup' hinv
    have hg1nodes : g1.nodes = g.nodes ++ [(nid, ⟨nid, lat, lon⟩)] :=
      addNode_nodes_fresh _ hdup'
    have hnidmem : nid ∉ g.nodes.map Prod.fst := by
      intro hmem
      obtain ⟨p, hp, hpe⟩ := List.mem_map.mp hmem
      have h' : g.nodes.any (fun q => q.1 == nid) = false := hdup'
      have := List.any_eq_false.mp h' p hp
      simp only [beq_iff_eq] at this
      exact this hpe
    have hnd1 : (g1.nodes.map Prod.fst).Nodup := by
      rw [hg1nodes]
      simp only [List.map_append, List.map_cons, List.map_nil]
      rw [List.nodup_append]
      refine ⟨hnd, List.nodup_singleton nid, ?_⟩
      intro x hx hx2
      simp only [List.mem_singleton] at hx2
      exact hnidmem (hx2 ▸ hx)
    refine (foldl_preserve (P := fun h => h.nodes = g1.nodes ∧ havInvariant hav h)
      _ _ g1 ⟨rfl, hinv1⟩ ?_).2
    intro h nd hmem hPh
    have hnd' : nd ∈ g1.nodes.filterMap (fun p =>
        if p.1 == nid then none
        else
          let d := hav lat lon p.2.lat p.2.lon
          if d ≤ maxd then some (p.1, d) else none) :=
      (sortStable_perm _ _).subset (List.take_subset _ _ hmem)
    obtain ⟨p, hpmem, hp⟩ := List.mem_filterMap.mp hnd'
    by_cases hpn : (p.1 == nid) = true
    · rw [if_pos hpn] at hp; cases hp
    · rw [if_neg hpn] at hp
      simp only at hp
      by_cases hd : hav lat lon p.2.lat p.2.lon ≤ maxd
      · rw [if_pos hd] at hp
        obtain rfl := Option.some.inj hp
        have hcn : h.coordOf nid = some (lat, lon) := by
          rw [coordOf_eq_of_nodes hPh.1]
          rw [coordOf_addNode_fresh _ hdup' nid]
          simp
        have hcp : h.coordOf p.1 = some (p.2.lat, p.2.lon) := by
          rw [coordOf_eq_of_nodes hPh.1]
          unfold Graph.coordOf
          rw [find?_of_nodup_mem hnd1 hpmem]
          rfl
        have hne : nid ≠ p.1 := by
          intro hc
          exact (by simpa using hpn : p.1 ≠ nid) hc.symm
        exact ⟨(addEdge_nodes _ _ _ _).trans hPh.1,
          addEdge_havInv hsym hPh.2 hcn hcp rfl hne⟩
      · rw [if_neg hd] at hp; cases hp

/-- C3 amended: the invariant "edge `distance` = haversine of the endpoints
and no self-loops" holds for graphs produced by `build_graph` (both modes)
and preserved by `add_virtual_node`, but not for `add_map_routes`, which
stores the caller-supplied `distance_km` without recomputation and can add
self-loops (see the counterexample). -/
theorem C3_amended_edge_invariant {hav : ℚ → ℚ → ℚ → ℚ → ℚ}
    (hsym : ∀ a b c d, hav a b c d = hav c d a b) :
    (∀ (stations : List Station) (mk : ℚ) (kn : Option ℕ) (avg : ℚ),
        (stations.map (fun s => s.id)).Nodup →
        havInvariant hav (build_graph hav stations mk kn avg)) ∧
    (∀ (g : Graph) (nid : String) (lat lon : ℚ) (k : ℕ) (maxd avg : ℚ),
        havInvariant hav g → g.nodeIds.Nodup →
        havInvariant hav (add_virtual_node hav g nid lat lon k maxd avg).2) :=
  ⟨fun stations mk kn avg hnd => build_graph_havInv hsym stations mk kn avg hnd,
    fun g nid lat lon k maxd avg hinv hnd =>
      add_virtual_node_havInv hsym g nid lat lon k maxd avg hinv hnd⟩

/-- Witness for the amended C3 at the concrete symmetric distance `havW`. -/
theorem C3_amended_edge_invariant_witness :
    (∀ (stations : List Station) (mk : ℚ) (kn : Option ℕ) (avg : ℚ),
        (stations.map (fun s => s.id)).Nodup →
        havInvariant havW (build_graph havW stations mk kn avg)) ∧
    (∀ (g : Graph) (nid : String) (lat lon : ℚ) (k : ℕ) (maxd avg : ℚ),
        havInvariant havW g → g.nodeIds.Nodup →
        havInvariant havW (add_virtual_node havW g nid lat lon k maxd avg).2) :=
  C3_amended_edge_invariant havW_symm

/-- The neighbours a node can reach: one entry per incident edge.  For the
self-loop-free graphs of `build_graph` its length is the networkx degree. -/
def Graph.adjIds (g : Graph) (v : String) : List String :=
  g.edges.filterMap (fun e =>
    if e.1 == v then some e.2.1
    else if e.2.1 == v then some e.1 else none)

/-- Node degree: number of incident edges. -/
def Graph.degree (g : Graph) (v : String) : ℕ := (g.adjIds v).length

theorem hasEdge_symm (g : Graph) (a b : String) : g.hasEdge a b = g.hasEdge b a := by
  unfold Graph.hasEdge
  congr 1
  funext e
  rw [Bool.or_comm]

theorem addEdge_endpoints_surv {g : Graph} {e : String × String × EdgeData}
    (he : e ∈ g.edges) (a b : String) (d : EdgeData) :
    ∃ d', (e.1, e.2.1, d') ∈ (g.addEdge a b d).edges := by
  unfold Graph.addEdge
  split
  · by_cases hm : ((e.1 == a && e.2.1 == b) || (e.1 == b && e.2.1 == a)) = true
    · refine ⟨d, ?_⟩
      have : (fun e => if (e.1 == a && e.2.1 == b) || (e.1 == b && e.2.1 == a) then
          (e.1, e.2.1, d) else e) e = (e.1, e.2.1, d) := by
        simp [hm]
      exact this ▸ List.mem_map_of_mem _ he
    · refine ⟨e.2.2, ?_⟩
      have heq : (fun e => if (e.1 == a && e.2.1 == b) || (e.1 == b && e.2.1 == a) then
          (e.1, e.2.1, d) else e) e = e := by
        simp [hm]
      exact heq ▸ List.mem_map_of_mem _ he
  · exact ⟨e.2.2, List.mem_append_left _ (by simpa using he)⟩

theorem hasEdge_addEdge_mono {g : Graph} {x y : String}
    (h : g.hasEdge x y = true) (a b : String) (d : EdgeData) :
    (g.addEdge a b d).hasEdge x y = true := by
  unfold Graph.hasEdge at h
  obtain ⟨e, he, hcond⟩ := List.any_eq_true.mp h
  obtain ⟨d', hd'⟩ := addEdge_endpoints_surv he a b d
  unfold Graph.hasEdge
  refine List.any_eq_true.mpr ⟨(e.1, e.2.1, d'), hd', ?_⟩
  simpa using hcond

theorem hasEdge_addEdge_self (g : Graph) (a b : String) (d : EdgeData) :
    (g.addEdge a b d).hasEdge a b = true := by
  unfold Graph.addEdge
  split
  · next hcond =>
    unfold Graph.hasEdge at hcond ⊢
    obtain ⟨e, he, hc⟩ := List.any_eq_true.mp hcond
    refine List.any_eq_true.mpr ⟨(e.1, e.2.1, d), ?_, ?_⟩
    · have : (fun e => if (e.1 == a && e.2.1 == b) || (e.1 == b && e.2.1 == a) then
          (e.1, e.2.1, d) else e) e = (e.1, e.2.1, d) := by
        simp [hc]
      exact this ▸ List.mem_map_of_mem _ he
    · simpa using hc
  · unfold Graph.hasEdge
    refine List.any_eq_true.mpr ⟨(a, b, d), List.mem_append_right _ (by simp), ?_⟩
    simp

theorem mem_adjIds_of_hasEdge {g : Graph} {a b : String} (hne : a ≠ b)
    (h : g.hasEdge a b = true) : b ∈ g.adjIds a := by
  unfold Graph.hasEdge at h
  obtain ⟨e, he, hcond⟩ := List.any_eq_true.mp h
  unfold Graph.adjIds
  simp only [Bool.or_eq_true, Bool.and_eq_true, beq_iff_eq] at hcond
  apply List.mem_filterMap.mpr
  rcases hcond with ⟨h1, h2⟩ | ⟨h1, h2⟩
  · exact ⟨e, he, by simp [h1, h2]⟩
  · refine ⟨e, he, ?_⟩
    have hna : (e.1 == a) = false := by simp [h1, Ne.symm hne]
    simp only [hna, Bool.false_eq_true, if_false, h2]
    simp [h1]

/-- Establishing a per-element postcondition through a left fold. -/
theorem foldl_establish {α β : Type} {step : β → α → β} {Q : α → β → Prop} :
    ∀ (l : List α) (g : β) (x : α), x ∈ l →
      (∀ g y, Q x g → Q x (step g y)) →
      (∀ g', Q x (step g' x)) →
      Q x (l.foldl step g) := by
  intro l
  induction l with
  | nil => intro g x hx; cases hx
  | cons a rest ih =>
    intro g x hx hmono hstep
    simp only [List.foldl_cons]
    rcases List.mem_cons.mp hx with h | h
    · subst h
      exact foldl_preserve step rest (step g x) (hstep g)
        (fun g' y _ hp => hmono g' y hp)
    · exact ih (step g a) x h hmono hstep

theorem get_id_injective {stations : List Station}
    (hnd : (stations.map (fun s => s.id)).Nodup) :
    Function.Injective (fun i : Fin stations.length => (stations.get i).id) := by
  intro i j hij
  by_contra hne
  exact ids_get_ne hnd hne hij

theorem map_fst_filterMap_dists {n : ℕ} (i : Fin n) (f : Fin n → ℚ) :
    ∀ l : List (Fin n),
      (l.filterMap (fun j => if j = i then none else some (j, f j))).map Prod.fst =
        l.filter (fun j => !(j == i)) := by
  intro l
  induction l with
  | nil => rfl
  | cons a l ih =>
    simp only [List.filterMap_cons, List.filter_cons]
    by_cases ha : a = i
    · rw [if_pos ha]
      have hb : (!(a == i)) = false := by simp [ha]
      rw [hb]
      simpa using ih
    · rw [if_neg ha]
      have hb : (!(a == i)) = true := by simp [ha]
      rw [hb]
      simp only [List.map_cons]
      rw [ih]
      simp

theorem length_filter_ne {n : ℕ} (i : Fin n) :
    ∀ l : List (Fin n), l.Nodup → i ∈ l →
      (l.filter (fun j => !(j == i))).length = l.length - 1 := by
  intro l
  induction l with
  | nil => intro _ h; cases h
  | cons a l ih =>
    intro hnd hmem
    simp only [List.nodup_cons] at hnd
    by_cases ha : a = i
    · subst ha
      rw [List.filter_cons_of_neg (by simp)]
      rw [List.filter_eq_self.mpr ?_]
      · simp
      · intro b hb
        simp only [Bool.not_eq_eq_eq_not, Bool.not_true, beq_eq_false_iff_ne, ne_eq]
        intro hba
        exact hnd.1 (hba ▸ hb)
    · rw [List.filter_cons_of_pos (by simp [ha])]
      have hmem' : i ∈ l := by
        rcases List.mem_cons.mp hmem with h | h
        · exact absurd h.symm ha
        · exact h
      have hlen := ih hnd.2 hmem'
      have hpos : 1 ≤ l.length := List.length_pos.mpr (List.ne_nil_of_mem hmem')
      simp only [List.length_cons, hlen]
      omega

/-- C7: in k-nearest-neighbour mode with at least `k+1` distinct stations,
every station node of the built graph has degree at least `k`. -/
theorem C7_knn_min_degree (hav : ℚ → ℚ → ℚ → ℚ → ℚ) (stations : List Station)
    (max_edge_km : ℚ) (k : ℕ) (avg_speed_kmh : ℚ)
    (hnd : (stations.map (fun s => s.id)).Nodup)
    (hk : k + 1 ≤ stations.length) :
    ∀ s ∈ stations,
      k ≤ (build_graph hav stations max_edge_km (some k) avg_speed_kmh).degree s.id := by
  intro s hs
  obtain ⟨i, hi⟩ := List.mem_iff_get.mp hs
  set dists := (List.finRange stations.length).filterMap (fun j =>
    if j = i then none
    else some (j, hav (stations.get i).lat (stations.get i).lon
      (stations.get j).lat (stations.get j).lon)) with hdists
  set sorted := sortStable (fun a b => decide (a.2 ≤ b.2)) dists with hsorted
  -- `knnStep` at index `i`, with the `let`s unfolded
  have hknn : ∀ g', knnStep hav stations k avg_speed_kmh g' i =
      (sorted.take k).foldl (fun g jd =>
        if g.hasEdge (stations.get i).id (stations.get jd.1).id ||
            g.hasEdge (stations.get jd.1).id (stations.get i).id then g
        else g.addEdge (stations.get i).id (stations.get jd.1).id
          ⟨jd.2, jd.2, travelTime jd.2 avg_speed_kmh, false, false⟩) g' :=
    fun g' => rfl
  have hPost : ∀ jd ∈ sorted.take k,
      (build_graph hav stations max_edge_km (some k) avg_speed_kmh).hasEdge
        (stations.get i).id (stations.get jd.1).id = true := by
    intro jd hjd
    show ((List.finRange stations.length).foldl (knnStep hav stations k avg_speed_kmh)
      (buildNodes stations ⟨[], []⟩)).hasEdge
        (stations.get i).id (stations.get jd.1).id = true
    refine foldl_establish (Q := fun (x : Fin stations.length) g =>
        ∀ jd ∈ sorted.take k,
          g.hasEdge (stations.get x).id (stations.get jd.1).id = true)
      (List.finRange stations.length) (buildNodes stations ⟨[], []⟩) i
      (List.mem_finRange i) ?_ ?_ jd hjd
    · -- any step preserves existing edges
      intro g y hg jd' hjd'
      unfold knnStep
      refine foldl_preserve (P := fun g =>
          g.hasEdge (stations.get i).id (stations.get jd'.1).id = true)
        _ _ g (hg jd' hjd') ?_
      intro g' z _ hp
      dsimp only
      split
      · exact hp
      · exact hasEdge_addEdge_mono hp _ _ _
    · -- the step at `i` itself establishes every taken edge
      intro g' jd' hjd'
      rw [hknn g']
      refine foldl_establish (Q := fun jd g =>
          g.hasEdge (stations.get i).id (stations.get jd.1).id = true)
        _ g' jd' hjd' ?_ ?_
      · intro g z hp
        dsimp only
        split
        · exact hp
        · exact hasEdge_addEdge_mono hp _ _ _
      · intro g
        dsimp only
        split
        · next hcond =>
          rcases (Bool.or_eq_true _ _).mp hcond with h | h
          · exact h
          · rw [hasEdge_symm]
            exact h
        · exact hasEdge_addEdge_self _ _ _ _
  -- the taken prefix has exactly k entries with pairwise-distinct targets
  have hmapfst : dists.map Prod.fst =
      (List.finRange stations.length).filter (fun j => !(j == i)) :=
    map_fst_filterMap_dists i _ _
  have hfilter_len :
      ((List.finRange stations.length).filter (fun j => !(j == i))).length =
        stations.length - 1 := by
    rw [length_filter_ne i _ (List.nodup_finRange _) (List.mem_finRange i),
      List.length_finRange]
  have hdlen : dists.length = stations.length - 1 := by
    have := congrArg List.length hmapfst
    simpa [hfilter_len] using this
  have hslen : sorted.length = stations.length - 1 := by
    rw [(sortStable_perm _ _).length_eq, hdlen]
  have htklen : (sorted.take k).length = k := by
    rw [List.length_take, hslen]
    omega
  have hfst_nodup : ((sorted.take k).map Prod.fst).Nodup := by
    have h1 : (sorted.map Prod.fst).Nodup := by
      have hperm := (sortStable_perm (fun a b => decide (a.2 ≤ b.2)) dists).map Prod.fst
      rw [hperm.nodup_iff, hmapfst]
      exact (List.nodup_finRange stations.length).filter _
    rw [List.map_take]
    exact h1.sublist (List.take_sublist _ _)
  have hmem_ne : ∀ jd ∈ sorted.take k, jd.1 ≠ i := by
    intro jd hjd
    have : jd ∈ dists := (sortStable_perm _ _).subset (List.take_subset _ _ hjd)
    obtain ⟨j, _, hj⟩ := List.mem_filterMap.mp this
    by_cases hji : j = i
    · rw [if_pos hji] at hj; cases hj
    · rw [if_neg hji] at hj
      obtain rfl := Option.some.inj hj
      exact hji
  set tgts := (sorted.take k).map (fun jd => (stations.get jd.1).id) with htgts
  have htgts_nodup : tgts.Nodup := by
    have : tgts = ((sorted.take k).map Prod.fst).map
        (fun j => (stations.get j).id) := by
      rw [htgts, List.map_map]
      rfl
    rw [this]
    exact hfst_nodup.map (get_id_injective hnd)
  have htgts_len : tgts.length = k := by
    rw [htgts, List.length_map, htklen]
  have htgts_sub : ∀ t ∈ tgts,
      t ∈ (build_graph hav stations max_edge_km (some k) avg_speed_kmh).adjIds
        (stations.get i).id := by
    intro t ht
    obtain ⟨jd, hjd, rfl⟩ := List.mem_map.mp ht
    exact mem_adjIds_of_hasEdge (ids_get_ne hnd (Ne.symm (hmem_ne jd hjd)))
      (hPost jd hjd)
  -- count: k distinct targets, all neighbours of node i
  have hcard : k ≤ (build_graph hav stations max_edge_km (some k)
      avg_speed_kmh).degree (stations.get i).id := by
    have h1 : tgts.toFinset.card = k := by
      rw [List.toFinset_card_of_nodup htgts_nodup, htgts_len]
    have h2 : tgts.toFinset ⊆ ((build_graph hav stations max_edge_km (some k)
        avg_speed_kmh).adjIds (stations.get i).id).toFinset := by
      intro t ht
      rw [List.mem_toFinset] at ht ⊢
      exact htgts_sub t ht
    calc k = tgts.toFinset.card := h1.symm
      _ ≤ ((build_graph hav stations max_edge_km (some k)
            avg_speed_kmh).adjIds (stations.get i).id).toFinset.card :=
          Finset.card_le_card h2
      _ ≤ ((build_graph hav stations max_edge_km (some k)
            avg_speed_kmh).adjIds (stations.get i).id).length :=
          List.toFinset_card_le _
      _ = _ := rfl
  rw [← hi]
  exact hcard

/-! ## `src/routing_search.py` -/

/-- A charging event appended by the search (`charges` list entries). -/
structure SearchCharge where
  station_id : String
  arrive_soc : ℚ
  leave_soc : ℚ
  charge_minutes : ℚ
  penalty_minutes : ℚ
deriving DecidableEq, Repr

/-- `routing_search.State`. -/
structure SearchState where
  node : String
  battery_percent : ℚ
  path : List String
  total_distance_km : ℚ
  total_time_min : ℚ
  charges : List SearchCharge
deriving DecidableEq, Repr

/-- The quadruple returned on success. -/
structure SearchResult where
  path : List String
  total_distance_km : ℚ
  total_time_min : ℚ
  charges : List SearchCharge
deriving DecidableEq, Repr

/-- Everything the search functions read from their arguments.  The graph is
abstracted as a neighbour list `adj` (mirroring `G.neighbors(u)` paired with
`_edge_distance(u, v, G[u][v])`, which always yields a number — the
`dist is None` guard in the source is unreachable), the library routine
`nx.shortest_path_length` as `sp` (`none` = `NetworkXNoPath`/`NodeNotFound`),
`haversine_km` as `hav`, and the `G.nodes[x]` lat/lon lookup used by the A*
heuristic as `nodeCoord` (`none` = any exception caught by the source's
`try`, giving heuristic 0). -/
structure SearchEnv where
  adj : String → List (String × ℚ)
  sp : String → String → Option ℚ
  hav : ℚ → ℚ → ℚ → ℚ → ℚ
  nodeCoord : String → Option (ℚ × ℚ)
  stations : List Station
  battery_kwh_max : ℚ
  consumption_kwh_per_100km : ℚ
  safe_threshold_percent : ℚ
  charge_target_percent : ℚ
  avg_speed_kmh : ℚ
  enable_nearby_search : Bool
  max_search_distance_km : ℚ
  nearby_k : ℕ
  charge_penalty_minutes : ℚ
  max_expansions : ℕ

/-- `stations_index.loc[...]` on the id-indexed DataFrame: first row with
the given id. -/
def stationRow (stations : List Station) (id : String) : Option Station :=
  stations.find? (·.id == id)

/-- The body of `for neighbor in G.neighbors(state.node)` (identical in
`ucs_ev_search` and `astar_ev_search`): returns the state pushed for this
neighbour, if any. -/
def stepNeighbor (env : SearchEnv) (s : SearchState) (nv : String × ℚ) :
    Option SearchState :=
  let dist := nv.2
  let need_kwh := kwh_needed dist env.consumption_kwh_per_100km
  let need_percent := need_kwh / env.battery_kwh_max * 100
  let drive_time_min := if 0 < env.avg_speed_kmh then dist / env.avg_speed_kmh * 60 else 0
  if need_percent > s.battery_percent then none
  else if s.battery_percent - need_percent < env.safe_threshold_percent then
    match stationRow env.stations s.node with
    | none => none
    | some row =>
      match row.power_kw with
      | none => none
      | some power_kw =>
        if power_kw > 0 then
          let desired_after_arrival := env.safe_threshold_percent + need_percent
          let target_percent := min (max desired_after_arrival s.battery_percent)
            env.charge_target_percent
          if target_percent > s.battery_percent then
            let delta_percent := target_percent - s.battery_percent
            let delta_kwh := env.battery_kwh_max * delta_percent / 100
            let charge_minutes := charge_time_minutes power_kw delta_kwh
            some { node := s.node, battery_percent := target_percent,
                   path := s.path ++ ["Charge@" ++ s.node],
                   total_distance_km := s.total_distance_km,
                   total_time_min := s.total_time_min + charge_minutes +
                     env.charge_penalty_minutes,
                   charges := s.charges ++ [⟨s.node, round1 s.battery_percent,
                     round1 target_percent, round1 charge_minutes,
                     round1 env.charge_penalty_minutes⟩] }
          else none
        else none
  else
    let new_batt := s.battery_percent - need_percent
    if new_batt < 0 then none
    else some { node := nv.1, battery_percent := new_batt,
                path := s.path ++ [nv.1],
                total_distance_km := s.total_distance_km + dist,
                total_time_min := s.total_time_min + drive_time_min,
                charges := s.charges }

/-- One nearby-fallback candidate (the body of `for cand_id, approx_dist,
row in candidates`, identical in both search functions). -/
def nearbyStep (env : SearchEnv) (s : SearchState) (cand : Station × ℚ) :
    Option SearchState :=
  match env.sp s.node cand.1.id with
  | none => none
  | some sp_dist =>
    let need_kwh_to_cand := kwh_needed sp_dist env.consumption_kwh_per_100km
    let need_percent_to_cand := need_kwh_to_cand / env.battery_kwh_max * 100
    if need_percent_to_cand > s.battery_percent then none
    else
      match cand.1.power_kw with
      | none => none
      | some power_kw =>
        if power_kw ≤ 0 then none
        else
          let target_percent := env.charge_target_percent
          if target_percent ≤ s.battery_percent then none
          else
            let delta_percent := target_percent - s.battery_percent
            let delta_kwh := env.battery_kwh_max * delta_percent / 100
            let charge_minutes := charge_time_minutes power_kw delta_kwh
            let drive_time_min :=
              if 0 < env.avg_speed_kmh then sp_dist / env.avg_speed_kmh * 60 else 0
            some { node := cand.1.id, battery_percent := target_percent,
                   path := s.path ++ ["Drive->" ++ cand.1.id, "Charge@" ++ cand.1.id],
                   total_distance_km := s.total_distance_km + sp_dist,
                   total_time_min := s.total_time_min + drive_time_min + charge_minutes +
                     env.charge_penalty_minutes,
                   charges := s.charges ++ [⟨cand.1.id,
                     round1 (s.battery_percent - need_percent_to_cand),
                     round1 target_percent, round1 charge_minutes,
                     round1 env.charge_penalty_minutes⟩] }

/-- The nearby-fallback block (`if enable_nearby_search:`), identical in both
search functions: candidates within `max_search_distance_km`, sorted by
straight-line distance, truncated to `nearby_k`, each expanded by
`nearbyStep`. -/
def nearbyStates (env : SearchEnv) (s : SearchState) : List SearchState :=
  if env.enable_nearby_search then
    match stationRow env.stations s.node with
    | none => []
    | some cur =>
      let candidates := env.stations.filterMap (fun row =>
        if row.id == s.node then none
        else
          let approx := env.hav cur.lat cur.lon row.lat row.lon
          if approx ≤ env.max_search_distance_km then some (row, approx) else none)
      ((sortStable (fun a b => decide (a.2 ≤ b.2)) candidates).take env.nearby_k).filterMap
        (nearbyStep env s)
  else []

/-- All states pushed while expanding `s`, in push order. -/
def expandStates (env : SearchEnv) (s : SearchState) : List SearchState :=
  (env.adj s.node).filterMap (stepNeighbor env s) ++ nearbyStates env s

/-- Pop the minimum element of the `heapq` list (all keys are distinct
because of the `itertools.count` tiebreaker, so the heap pop is exactly the
minimum under the lexicographic tuple order). -/
def popMinBy (le : α → α → Bool) : List α → Option (α × List α)
  | [] => none
  | x :: xs =>
    match popMinBy le xs with
    | none => some (x, [])
    | some (m, rest) => if le x m then some (x, xs) else some (m, x :: rest)

/-- Lexicographic order on UCS heap entries `(cost, counter, state)`. -/
def ucsEntryLe (a b : ℚ × ℕ × SearchState) : Bool :=
  decide (a.1 < b.1) || (a.1 == b.1 && decide (a.2.1 ≤ b.2.1))

/-- Lexicographic order on A* heap entries `(f, g, counter, state)`. -/
def astarEntryLe (a b : ℚ × ℚ × ℕ × SearchState) : Bool :=
  decide (a.1 < b.1) ||
    (a.1 == b.1 && (decide (a.2.1 < b.2.1) ||
      (a.2.1 == b.2.1 && decide (a.2.2.1 ≤ b.2.2.1))))

/-- `visited[key]` lookup on the `visited` dict. -/
def visitedLookup (visited : List ((String × ℚ) × ℚ)) (key : String × ℚ) : Option ℚ :=
  (visited.find? (·.1 == key)).map (·.2)

/-- `visited[key] = cost` on the `visited` dict. -/
def visitedInsert (visited : List ((String × ℚ) × ℚ)) (key : String × ℚ) (c : ℚ) :
    List ((String × ℚ) × ℚ) :=
  if visited.any (·.1 == key) then
    visited.map (fun p => if p.1 == key then (key, c) else p)
  else visited ++ [(key, c)]

/-- Push every expanded state with key `total_time_min` and a fresh counter
(UCS). -/
def pushAllUcs (pq : List (ℚ × ℕ × SearchState)) (states : List SearchState)
    (counter : ℕ) : List (ℚ × ℕ × SearchState) × ℕ :=
  states.foldl (fun acc st =>
    (acc.1 ++ [(st.total_time_min, acc.2, st)], acc.2 + 1)) (pq, counter)

/-- The A* heuristic `h`: straight-line time to `endId`; 0 when a coordinate
lookup fails (the source catches every exception, and division by a zero
average speed, which raises in Python inside the same `try`, likewise gives
0 because `ℚ` division by zero is 0). -/
def hOf (env : SearchEnv) (endId v : String) : ℚ :=
  match env.nodeCoord v, env.nodeCoord endId with
  | some cu, some ce => env.hav cu.1 cu.2 ce.1 ce.2 / env.avg_speed_kmh * 60
  | _, _ => 0

/-- Push every expanded state with key `(g + h, g, counter)` (A*). -/
def pushAllAstar (env : SearchEnv) (endId : String)
    (pq : List (ℚ × ℚ × ℕ × SearchState)) (states : List SearchState)
    (counter : ℕ) : List (ℚ × ℚ × ℕ × SearchState) × ℕ :=
  states.foldl (fun acc st =>
    (acc.1 ++ [(st.total_time_min + hOf env endId st.node, st.total_time_min, acc.2, st)],
      acc.2 + 1)) (pq, counter)

/-- The `while pq` loop of `ucs_ev_search`; the fuel is the remaining
expansion budget (`max_expansions`), whose exhaustion returns the same
`None` quadruple as an empty frontier. -/
def ucsLoop (env : SearchEnv) (endId : String) :
    ℕ → List (ℚ × ℕ × SearchState) → List ((String × ℚ) × ℚ) → ℕ →
      Option SearchResult
  | 0, _, _, _ => none
  | fuel + 1, pq, visited, counter =>
    match popMinBy ucsEntryLe pq with
    | none => none
    | some ((cost, _, s), rest) =>
      if s.node == endId then
        some ⟨s.path, s.total_distance_km, s.total_time_min, s.charges⟩
      else
        let key := (s.node, round1 s.battery_percent)
        if (match visitedLookup visited key with
            | some c => decide (c ≤ cost)
            | none => false) then
          ucsLoop env endId fuel rest visited counter
        else
          let visited' := visitedInsert visited key cost
          let pc := pushAllUcs rest (expandStates env s) counter
          ucsLoop env endId fuel pc.1 visited' pc.2

/-- `ucs_ev_search(G, stations_df, start, end, battery_percent, ...)`. -/
def ucs_ev_search (env : SearchEnv) (start endId : String) (battery_percent : ℚ) :
    Option SearchResult :=
  ucsLoop env endId env.max_expansions
    [(0, 0, ⟨start, battery_percent, [start], 0, 0, []⟩)] [] 1

/-- The `while open_pq` loop of `astar_ev_search`. -/
def astarLoop (env : SearchEnv) (endId : String) :
    ℕ → List (ℚ × ℚ × ℕ × SearchState) → List ((String × ℚ) × ℚ) → ℕ →
      Option SearchResult
  | 0, _, _, _ => none
  | fuel + 1, pq, visited, counter =>
    match popMinBy astarEntryLe pq with
    | none => none
    | some ((_, gg, _, s), rest) =>
      if s.node == endId then
        some ⟨s.path, s.total_distance_km, s.total_time_min, s.charges⟩
      else
        let key := (s.node, round1 s.battery_percent)
        if (match visitedLookup visited key with
            | some c => decide (c ≤ gg)
            | none => false) then
          astarLoop env endId fuel rest visited counter
        else
          let visited' := visitedInsert visited key gg
          let pc := pushAllAstar env endId rest (expandStates env s) counter
          astarLoop env endId fuel pc.1 visited' pc.2

/-- `astar_ev_search(G, stations_df, start, end, battery_percent, ...)`. -/
def astar_ev_search (env : SearchEnv) (start endId : String) (battery_percent : ℚ) :
    Option SearchResult :=
  astarLoop env endId env.max_expansions
    [(hOf env endId start, 0, 0, ⟨start, battery_percent, [start], 0, 0, []⟩)] [] 1

/-! ### Traces of search transitions (for C2) -/

/-- One transition of the search's transition model, carrying the distance
it adds to the total: a direct edge move, a charge at the current node
(distance 0), or a nearby-fallback drive+charge at shortest-path distance. -/
inductive Tr
  | move (v : String) (d : ℚ)
  | chargeHere
  | nearby (v : String) (d : ℚ)
deriving DecidableEq, Repr

def trDest (cur : String) : Tr → String
  | .move v _ => v
  | .chargeHere => cur
  | .nearby v _ => v

def trSegs (cur : String) : Tr → List String
  | .move v _ => [v]
  | .chargeHere => ["Charge@" ++ cur]
  | .nearby v _ => ["Drive->" ++ v, "Charge@" ++ v]

def trDist : Tr → ℚ
  | .move _ d => d
  | .chargeHere => 0
  | .nearby _ d => d

/-- A transition is justified at `cur` when its distance really is the
graph-edge distance (`adj`) resp. the shortest-path distance (`sp`) used by
the search. -/
def trValid (adj : String → List (String × ℚ)) (sp : String → String → Option ℚ)
    (cur : String) : Tr → Prop
  | .move v d => (v, d) ∈ adj cur
  | .chargeHere => True
  | .nearby v d => sp cur v = some d

def destOf (start : String) : List Tr → String
  | [] => start
  | t :: ts => destOf (trDest start t) ts

def pathOf (start : String) : List Tr → List String
  | [] => []
  | t :: ts => trSegs start t ++ pathOf (trDest start t) ts

def distOf (ts : List Tr) : ℚ := (ts.map trDist).sum

def validFrom (adj : String → List (String × ℚ)) (sp : String → String → Option ℚ) :
    String → List Tr → Prop
  | _, [] => True
  | cur, t :: ts => trValid adj sp cur t ∧ validFrom adj sp (trDest cur t) ts

theorem destOf_append (start : String) (ts : List Tr) (t : Tr) :
    destOf start (ts ++ [t]) = trDest (destOf start ts) t := by
  induction ts generalizing start with
  | nil => rfl
  | cons a ts ih => simp only [List.cons_append, destOf]; exact ih _

theorem pathOf_append (start : String) (ts : List Tr) (t : Tr) :
    pathOf start (ts ++ [t]) = pathOf start ts ++ trSegs (destOf start ts) t := by
  induction ts generalizing start with
  | nil => simp [pathOf, destOf]
  | cons a ts ih =>
    show trSegs start a ++ pathOf (trDest start a) (ts ++ [t]) =
      trSegs start a ++ pathOf (trDest start a) ts ++ trSegs (destOf (trDest start a) ts) t
    rw [ih, List.append_assoc]

theorem distOf_append (ts : List Tr) (t : Tr) :
    distOf (ts ++ [t]) = distOf ts + trDist t := by
  unfold distOf
  simp

theorem validFrom_append {adj : String → List (String × ℚ)}
    {sp : String → String → Option ℚ} {start : String} {ts : List Tr} {t : Tr}
    (h : validFrom adj sp start ts) (ht : trValid adj sp (destOf start ts) t) :
    validFrom adj sp start (ts ++ [t]) := by
  induction ts generalizing start with
  | nil => exact ⟨ht, trivial⟩
  | cons a ts ih =>
    simp only [List.cons_append, validFrom] at h ⊢
    exact ⟨h.1, ih h.2 ht⟩

/-- The invariant of every state created by the search: non-negative SOC,
non-negative SOC values in every recorded charging event, and a trace of
(dist-justified) transitions producing exactly the state's path and
accumulated distance. -/
def SInv (env : SearchEnv) (start : String) (s : SearchState) : Prop :=
  0 ≤ s.battery_percent ∧
  (∀ c ∈ s.charges, 0 ≤ c.arrive_soc ∧ 0 ≤ c.leave_soc) ∧
  ∃ ts : List Tr, validFrom env.adj env.sp start ts ∧
    s.node = destOf start ts ∧
    s.path = start :: pathOf start ts ∧
    s.total_distance_km = distOf ts

theorem stepNeighbor_SInv {env : SearchEnv} {start : String} {s s' : SearchState}
    {nv : String × ℚ} (hmem : nv ∈ env.adj s.node) (hs : SInv env start s)
    (hstep : stepNeighbor env s nv = some s') : SInv env start s' := by
  obtain ⟨hb, hcs, ts, hvalid, hnode, hpath, hdist⟩ := hs
  simp only [stepNeighbor] at hstep
  split at hstep
  · exact Option.noConfusion hstep
  · split at hstep
    · -- remaining SOC below the safe threshold: charge at the current node
      split at hstep
      · exact Option.noConfusion hstep
      · split at hstep
        · exact Option.noConfusion hstep
        · split at hstep
          · split at hstep
            · next h4 =>
              obtain rfl := Option.some.inj hstep
              refine ⟨le_of_lt (lt_of_le_of_lt hb h4), ?_,
                ts ++ [.chargeHere], ?_, ?_, ?_, ?_⟩
              · intro c hc
                rcases List.mem_append.mp hc with h | h
                · exact hcs c h
                · simp only [List.mem_singleton] at h
                  subst h
                  exact ⟨round1_nonneg hb,
                    round1_nonneg (le_of_lt (lt_of_le_of_lt hb h4))⟩
              · exact validFrom_append hvalid trivial
              · rw [destOf_append, ← hnode]; rfl
              · rw [pathOf_append, hpath, ← hnode]
                simp [trSegs]
              · rw [distOf_append, hdist]
                simp [trDist]
            · exact Option.noConfusion hstep
          · exact Option.noConfusion hstep
    · -- feasible direct move
      split at hstep
      · exact Option.noConfusion hstep
      · next h5 =>
        obtain rfl := Option.some.inj hstep
        refine ⟨not_lt.mp h5, hcs, ts ++ [.move nv.1 nv.2], ?_, ?_, ?_, ?_⟩
        · exact validFrom_append hvalid (by rw [← hnode]; exact hmem)
        · rw [destOf_append]; rfl
        · rw [pathOf_append, hpath, ← hnode]
          simp [trSegs]
        · rw [distOf_append, hdist]
          simp [trDist]

theorem nearbyStep_SInv {env : SearchEnv} {start : String} {s s' : SearchState}
    {cand : Station × ℚ} (hs : SInv env start s)
    (hstep : nearbyStep env s cand = some s') : SInv env start s' := by
  obtain ⟨hb, hcs, ts, hvalid, hnode, hpath, hdist⟩ := hs
  simp only [nearbyStep] at hstep
  split at hstep
  · exact Option.noConfusion hstep
  · next sp_dist hsp =>
    split at hstep
    · exact Option.noConfusion hstep
    · next h1 =>
      split at hstep
      · exact Option.noConfusion hstep
      · split at hstep
        · exact Option.noConfusion hstep
        · split at hstep
          · exact Option.noConfusion hstep
          · next h3 =>
            obtain rfl := Option.some.inj hstep
            have htarget : 0 ≤ env.charge_target_percent :=
              le_of_lt (lt_of_le_of_lt hb (not_le.mp h3))
            refine ⟨htarget, ?_, ts ++ [.nearby cand.1.id sp_dist], ?_, ?_, ?_, ?_⟩
            · intro c hc
              rcases List.mem_append.mp hc with h | h
              · exact hcs c h
              · simp only [List.mem_singleton] at h
                subst h
                exact ⟨round1_nonneg (by linarith [not_lt.mp h1]),
                  round1_nonneg htarget⟩
            · exact validFrom_append hvalid (by rw [← hnode]; exact hsp)
            · rw [destOf_append]; rfl
            · rw [pathOf_append, hpath, ← hnode]
              simp [trSegs]
            · rw [distOf_append, hdist]
              simp [trDist]

theorem expandStates_SInv {env : SearchEnv} {start : String} {s : SearchState}
    (hs : SInv env start s) :
    ∀ s' ∈ expandStates env s, SInv env start s' := by
  intro s' hmem
  unfold expandStates at hmem
  rcases List.mem_append.mp hmem with h | h
  · obtain ⟨nv, hnv, hstep⟩ := List.mem_filterMap.mp h
    exact stepNeighbor_SInv hnv hs hstep
  · unfold nearbyStates at h
    split at h
    · split at h
      · cases h
      · obtain ⟨cand, _, hstep⟩ := List.mem_filterMap.mp h
        exact nearbyStep_SInv hs hstep
    · cases h

theorem popMinBy_mem {le : α → α → Bool} :
    ∀ {l : List α} {x : α} {rest : List α}, popMinBy le l = some (x, rest) →
      x ∈ l ∧ ∀ y ∈ rest, y ∈ l := by
  intro l
  induction l with
  | nil => intro x rest h; cases h
  | cons a xs ih =>
    intro x rest h
    simp only [popMinBy] at h
    split at h
    · obtain ⟨rfl, rfl⟩ := Prod.mk.inj (Option.some.inj h)
      exact ⟨List.mem_cons_self a xs, fun y hy => by cases hy⟩
    · next m r hrec =>
      split at h
      · obtain ⟨rfl, rfl⟩ := Prod.mk.inj (Option.some.inj h)
        exact ⟨List.mem_cons_self a xs, fun y hy => List.mem_cons_of_mem a hy⟩
      · obtain ⟨rfl, rfl⟩ := Prod.mk.inj (Option.some.inj h)
        obtain ⟨hm, hr⟩ := ih hrec
        refine ⟨List.mem_cons_of_mem a hm, ?_⟩
        intro y hy
        rcases List.mem_cons.mp hy with h | h
        · exact h ▸ List.mem_cons_self a xs
        · exact List.mem_cons_of_mem a (hr y h)

theorem pushAllUcs_mem :
    ∀ (states : List SearchState) (pq : List (ℚ × ℕ × SearchState)) (counter : ℕ)
      (e : ℚ × ℕ × SearchState), e ∈ (pushAllUcs pq states counter).1 →
      e ∈ pq ∨ e.2.2 ∈ states := by
  intro states
  induction states with
  | nil => intro pq counter e he; exact Or.inl he
  | cons st sts ih =>
    intro pq counter e he
    have he' := ih (pq ++ [(st.total_time_min, counter, st)]) (counter + 1) e he
    rcases he' with h | h
    · rcases List.mem_append.mp h with h | h
      · exact Or.inl h
      · simp only [List.mem_singleton] at h
        subst h
        exact Or.inr (List.mem_cons_self st sts)
    · exact Or.inr (List.mem_cons_of_mem st h)

theorem pushAllAstar_mem (env : SearchEnv) (endId : String) :
    ∀ (states : List SearchState) (pq : List (ℚ × ℚ × ℕ × SearchState)) (counter : ℕ)
      (e : ℚ × ℚ × ℕ × SearchState), e ∈ (pushAllAstar env endId pq states counter).1 →
      e ∈ pq ∨ e.2.2.2 ∈ states := by
  intro states
  induction states with
  | nil => intro pq counter e he; exact Or.inl he
  | cons st sts ih =>
    intro pq counter e he
    have he' := ih (pq ++ [(st.total_time_min + hOf env endId st.node,
      st.total_time_min, counter, st)]) (counter + 1) e he
    rcases he' with h | h
    · rcases List.mem_append.mp h with h | h
      · exact Or.inl h
      · simp only [List.mem_singleton] at h
        subst h
        exact Or.inr (List.mem_cons_self st sts)
    · exact Or.inr (List.mem_cons_of_mem st h)

/-- The conclusion C2 asserts about a returned result. -/
def ResOk (env : SearchEnv) (start : String) (res : SearchResult) : Prop :=
  (∃ ts : List Tr, validFrom env.adj env.sp start ts ∧
    res.path = start :: pathOf start ts ∧
    res.total_distance_km = distOf ts) ∧
  ∀ c ∈ res.charges, 0 ≤ c.arrive_soc ∧ 0 ≤ c.leave_soc

theorem ucsLoop_inv (env : SearchEnv) (start endId : String) :
    ∀ (fuel : ℕ) (pq : List (ℚ × ℕ × SearchState))
      (visited : List ((String × ℚ) × ℚ)) (counter : ℕ),
      (∀ e ∈ pq, SInv env start e.2.2) →
      ∀ res, ucsLoop env endId fuel pq visited counter = some res →
        ResOk env start res := by
  intro fuel
  induction fuel with
  | zero => intro pq visited counter _ res h; cases h
  | succ fuel ih =>
    intro pq visited counter hpq res hres
    simp only [ucsLoop] at hres
    split at hres
    · exact Option.noConfusion hres
    · next cost cnt s rest hpop =>
      obtain ⟨hsmem, hrest⟩ := popMinBy_mem hpop
      have hs : SInv env start s := hpq _ hsmem
      split at hres
      · obtain rfl := Option.some.inj hres
        obtain ⟨_, hcs, ts, hvalid, _, hpath, hdist⟩ := hs
        exact ⟨⟨ts, hvalid, hpath, hdist⟩, hcs⟩
      · split at hres
        · exact ih rest visited counter (fun e he => hpq e (hrest e he)) res hres
        · refine ih _ _ _ ?_ res hres
          intro e he
          rcases pushAllUcs_mem _ _ _ _ he with h | h
          · exact hpq e (hrest e h)
          · exact expandStates_SInv hs _ h

theorem astarLoop_inv (env : SearchEnv) (start endId : String) :
    ∀ (fuel : ℕ) (pq : List (ℚ × ℚ × ℕ × SearchState))
      (visited : List ((String × ℚ) × ℚ)) (counter : ℕ),
      (∀ e ∈ pq, SInv env start e.2.2.2) →
      ∀ res, astarLoop env endId fuel pq visited counter = some res →
        ResOk env start res := by
  intro fuel
  induction fuel with
  | zero => intro pq visited counter _ res h; cases h
  | succ fuel ih =>
    intro pq visited counter hpq res hres
    simp only [astarLoop] at hres
    split at hres
    · exact Option.noConfusion hres
    · next f gg cnt s rest hpop =>
      obtain ⟨hsmem, hrest⟩ := popMinBy_mem hpop
      have hs : SInv env start s := hpq _ hsmem
      split at hres
      · obtain rfl := Option.some.inj hres
        obtain ⟨_, hcs, ts, hvalid, _, hpath, hdist⟩ := hs
        exact ⟨⟨ts, hvalid, hpath, hdist⟩, hcs⟩
      · split at hres
        · exact ih rest visited counter (fun e he => hpq e (hrest e he)) res hres
        · refine ih _ _ _ ?_ res hres
          intro e he
          rcases pushAllAstar_mem env endId _ _ _ _ he with h | h
          · exact hpq e (hrest e h)
          · exact expandStates_SInv hs _ h

/-- C2: for every search call returning a non-null result (UCS or A*), the
returned total distance is the sum of the distances of the transitions
along the returned path — each a graph-edge distance (`adj`), a zero-length
charge, or a fallback shortest-path distance (`sp`) — and every SOC value
recorded in the charging trace (`arrive_soc` and `leave_soc`) is
non-negative. -/
theorem C2_search_totals_and_soc (env : SearchEnv) (start endId : String)
    (battery_percent : ℚ) (hb : 0 ≤ battery_percent) :
    (∀ res, ucs_ev_search env start endId battery_percent = some res →
      ResOk env start res) ∧
    (∀ res, astar_ev_search env start endId battery_percent = some res →
      ResOk env start res) := by
  have hstart : SInv env start ⟨start, battery_percent, [start], 0, 0, []⟩ := by
    refine ⟨hb, ?_, ⟨[], trivial, rfl, rfl, rfl⟩⟩
    intro c hc
    cases hc
  constructor
  · intro res hres
    exact ucsLoop_inv env start endId env.max_expansions _ [] 1
      (by
        intro e he
        simp only [List.mem_singleton] at he
        subst he
        exact hstart) res hres
  · intro res hres
    exact astarLoop_inv env start endId env.max_expansions _ [] 1
      (by
        intro e he
        simp only [List.mem_singleton] at he
        subst he
        exact hstart) res hres

/-- A concrete two-node search environment for witnesses. -/
def envW : SearchEnv where
  adj n := if n = "A" then [("B", 10)] else if n = "B" then [("A", 10)] else []
  sp _ _ := none
  hav := havW
  nodeCoord n :=
    if n = "A" then some (0, 0) else if n = "B" then some (10, 0) else none
  stations := stationsW
  battery_kwh_max := 100
  consumption_kwh_per_100km := 100
  safe_threshold_percent := 20
  charge_target_percent := 80
  avg_speed_kmh := 60
  enable_nearby_search := false
  max_search_distance_km := 100
  nearby_k := 5
  charge_penalty_minutes := 0
  max_expansions := 10

/-- Witness for C2: both searches run on the concrete environment (and do
return results there). -/
theorem C2_search_totals_and_soc_witness :
    ((ucs_ev_search envW "A" "B" 50).isSome = true ∧
      (astar_ev_search envW "A" "B" 50).isSome = true) ∧
    (∀ res, ucs_ev_search envW "A" "B" 50 = some res → ResOk envW "A" res) ∧
    (∀ res, astar_ev_search envW "A" "B" 50 = some res → ResOk envW "A" res) :=
  ⟨⟨by with_unfolding_all decide, by with_unfolding_all decide⟩,
    (C2_search_totals_and_soc envW "A" "B" 50 (by norm_num)).1,
    (C2_search_totals_and_soc envW "A" "B" 50 (by norm_num)).2⟩

/-! ## `src/simulator.py` — `simulate_single_route` and `evaluate_routes` -/

/-- A charging event recorded by the simulator. -/
structure SimCharge where
  station_id : String
  arrive_soc : ℚ
  leave_soc : ℚ
  charge_minutes : ℚ
  detour_km : ℚ
deriving DecidableEq, Repr

/-- The loop accumulator of `simulate_single_route` (`soc`, totals,
`charges`). -/
structure SimAcc where
  soc : ℚ
  total_distance : ℚ
  total_driving_time : ℚ
  total_charging_time : ℚ
  charges : List SimCharge
deriving DecidableEq, Repr

/-- The dict returned by the simulator on success. -/
structure SimResult where
  total_distance_km : ℚ
  total_driving_time_min : ℚ
  total_charging_time_min : ℚ
  total_time_min : ℚ
  charges : List SimCharge
  feasible : Bool
deriving DecidableEq, Repr

/-- Everything `simulate_single_route` reads: the graph only through
`nx.shortest_path_length` (`sp`), `haversine_km` as `hav`, the station
DataFrame, and the scalar parameters. -/
structure SimEnv where
  sp : String → String → Option ℚ
  hav : ℚ → ℚ → ℚ → ℚ → ℚ
  stations : List Station
  battery_kwh_max : ℚ
  consumption_kwh_per_100km : ℚ
  safe_threshold_percent : ℚ
  charge_target_percent : ℚ
  avg_speed_kmh : ℚ
  nearby_k : ℕ
  nearby_radius_km : ℚ

/-- Python's running `added_time < best_added_time` argmin (initial best is
`float("inf")`, ties keep the earlier candidate). -/
def chooseBest {α : Type} (opts : List (Option (ℚ × α))) : Option (ℚ × α) :=
  opts.foldl (fun best o =>
    match o with
    | none => best
    | some tc =>
      match best with
      | none => some tc
      | some btc => if tc.1 < btc.1 then some tc else some btc) none

/-- One candidate of the first detour block of `simulate_single_route`
(`need_percent > soc`): skipped (`none`) on no path, insufficient SOC,
unusable power, or `charge_target_percent ≤ soc`; otherwise
`(added_time, (sid, sp_dist, charge_min, delta_percent))`. -/
def detourOption1 (env : SimEnv) (cur : String) (soc : ℚ) (row : Station) :
    Option (ℚ × String × ℚ × ℚ × ℚ) :=
  match env.sp cur row.id with
  | none => none
  | some sp_dist =>
    let need_percent := kwh_needed sp_dist env.consumption_kwh_per_100km /
      env.battery_kwh_max * 100
    if need_percent > soc then none
    else
      match row.power_kw with
      | none => none
      | some power_kw =>
        if power_kw ≤ 0 then none
        else
          let target := env.charge_target_percent
          if target ≤ soc then none
          else
            let delta := target - soc
            let charge_min := charge_time_minutes power_kw
              (env.battery_kwh_max * delta / 100)
            let detour_time := sp_dist / env.avg_speed_kmh * 60
            some (detour_time + charge_min, row.id, sp_dist, charge_min, delta)

/-- One candidate of the second detour block (pre-charge fallback): same,
but with no `target ≤ soc` skip and `delta_percent = max(0, target - soc)`. -/
def detourOption2 (env : SimEnv) (cur : String) (soc : ℚ) (row : Station) :
    Option (ℚ × String × ℚ × ℚ × ℚ) :=
  match env.sp cur row.id with
  | none => none
  | some sp_dist =>
    let need_percent := kwh_needed sp_dist env.consumption_kwh_per_100km /
      env.battery_kwh_max * 100
    if need_percent > soc then none
    else
      match row.power_kw with
      | none => none
      | some power_kw =>
        if power_kw ≤ 0 then none
        else
          let delta := max 0 (env.charge_target_percent - soc)
          let charge_min := charge_time_minutes power_kw
            (env.battery_kwh_max * delta / 100)
          let detour_time := sp_dist / env.avg_speed_kmh * 60
          some (detour_time + charge_min, row.id, sp_dist, charge_min, delta)

/-- Candidate selection of the first detour block: stations other than
`cur` within `nearby_radius_km`, sorted by straight-line distance, first
`nearby_k`, best by added time. -/
def simDetour1 (env : SimEnv) (cur : String) (cur_lat cur_lon soc : ℚ) :
    Option (String × ℚ × ℚ × ℚ) :=
  let candidates := env.stations.filterMap (fun row =>
    if row.id == cur then none
    else
      let d := env.hav cur_lat cur_lon row.lat row.lon
      if d ≤ env.nearby_radius_km then some (row, d) else none)
  let taken := (sortStable (fun a b => decide (a.2 ≤ b.2)) candidates).take env.nearby_k
  (chooseBest (taken.map (fun rd => detourOption1 env cur soc rd.1))).map (·.2)

/-- Candidate selection of the second detour block; unlike the first block
the source has no `sid == cur` skip here. -/
def simDetour2 (env : SimEnv) (cur : String) (cur_lat cur_lon soc : ℚ) :
    Option (String × ℚ × ℚ × ℚ) :=
  let candidates := env.stations.filterMap (fun row =>
    let d := env.hav cur_lat cur_lon row.lat row.lon
    if d ≤ env.nearby_radius_km then some (row, d) else none)
  let taken := (sortStable (fun a b => decide (a.2 ≤ b.2)) candidates).take env.nearby_k
  (chooseBest (taken.map (fun rd => detourOption2 env cur soc rd.1))).map (·.2)

/-- Drive the chosen detour and charge there (the accounting code shared by
both blocks); `none` when the SOC would go strictly negative on the way. -/
def applyDetour (env : SimEnv) (acc : SimAcc) (chosen : String × ℚ × ℚ × ℚ) :
    Option SimAcc :=
  let sid := chosen.1
  let detour_km := chosen.2.1
  let charge_min := chosen.2.2.1
  let delta_percent := chosen.2.2.2
  let soc1 := acc.soc - kwh_needed detour_km env.consumption_kwh_per_100km /
    env.battery_kwh_max * 100
  if soc1 < 0 then none
  else
    let arrive := round2 soc1
    let soc2 := min 100 (soc1 + delta_percent)
    some { soc := soc2,
           total_distance := acc.total_distance + detour_km,
           total_driving_time := acc.total_driving_time + detour_km / env.avg_speed_kmh * 60,
           total_charging_time := acc.total_charging_time + charge_min,
           charges := acc.charges ++
             [⟨sid, arrive, round2 soc2, round1 charge_min, round2 detour_km⟩] }

/-- Charging at the current station in the pre-charge block: `none` means
`did_charge` stays false (no usable power, or `target ≤ soc`). -/
def preCharge (env : SimEnv) (cur : String) (cur_row : Station) (acc : SimAcc) :
    Option SimAcc :=
  match cur_row.power_kw with
  | none => none
  | some power_kw =>
    if power_kw > 0 then
      let target := env.charge_target_percent
      if target > acc.soc then
        let delta := target - acc.soc
        let charge_min := charge_time_minutes power_kw (env.battery_kwh_max * delta / 100)
        let arrive := round2 acc.soc
        let soc2 := min 100 (acc.soc + delta)
        some { acc with
          soc := soc2
          total_charging_time := acc.total_charging_time + charge_min
          charges := acc.charges ++ [⟨cur, arrive, round2 soc2, round1 charge_min, 0⟩] }
      else none
    else none

/-- One iteration of `simulate_single_route`'s segment loop
(`for i in range(len(route_node_ids) - 1)`). -/
def simStep (env : SimEnv) (acc : SimAcc) (cur nxt : String) : Option SimAcc :=
  match stationRow env.stations cur, stationRow env.stations nxt with
  | some cur_row, some nxt_row =>
    let seg_dist := env.hav cur_row.lat cur_row.lon nxt_row.lat nxt_row.lon
    let need_percent := kwh_needed seg_dist env.consumption_kwh_per_100km /
      env.battery_kwh_max * 100
    (if need_percent > acc.soc then
        match simDetour1 env cur cur_row.lat cur_row.lon acc.soc with
        | none => none
        | some chosen => applyDetour env acc chosen
      else some acc).bind (fun acc1 =>
      (if acc1.soc - need_percent < env.safe_threshold_percent then
          match preCharge env cur cur_row acc1 with
          | some acc' => some acc'
          | none =>
            match simDetour2 env cur cur_row.lat cur_row.lon acc1.soc with
            | none => some acc1
            | some chosen => applyDetour env acc1 chosen
        else some acc1).bind (fun acc2 =>
        let soc3 := acc2.soc - need_percent
        if soc3 < -(1 / 1000000) then none
        else some { acc2 with
          soc := soc3
          total_distance := acc2.total_distance + seg_dist
          total_driving_time := acc2.total_driving_time + seg_dist / env.avg_speed_kmh * 60 }))
  | _, _ => none

/-- The segment loop over consecutive pairs of `route_node_ids`. -/
def simLoop (env : SimEnv) : SimAcc → List String → Option SimAcc
  | acc, cur :: nxt :: rest =>
    (simStep env acc cur nxt).bind (fun acc' => simLoop env acc' (nxt :: rest))
  | acc, _ => some acc

/-- `simulate_single_route(G, stations_df, route_node_ids,
battery_percent_start, ...)`; `none` is Python's `None` (infeasible or
lookup failure). -/
def simulate_single_route (env : SimEnv) (route_node_ids : List String)
    (battery_percent_start : ℚ) : Option SimResult :=
  if route_node_ids.isEmpty then none
  else
    (simLoop env ⟨battery_percent_start, 0, 0, 0, []⟩ route_node_ids).map (fun acc =>
      { total_distance_km := round3 acc.total_distance,
        total_driving_time_min := round1 acc.total_driving_time,
        total_charging_time_min := round1 acc.total_charging_time,
        total_time_min := round1 (acc.total_driving_time + acc.total_charging_time),
        charges := acc.charges,
        feasible := true })

/-- One element of the list `evaluate_routes` returns: the infeasible dict
`{"route": ..., "feasible": False}` is `res = none`; a feasible result dict
(which carries `feasible: True`) is `res = some r`. -/
structure EvalEntry where
  route : List String
  feasible : Bool
  res : Option SimResult
deriving DecidableEq, Repr

/-- `float("inf") if not feasible else field` sort key. -/
def evalKey (field : SimResult → ℚ) (e : EvalEntry) : Option ℚ :=
  match e.res with
  | none => none
  | some r => some (field r)

/-- Order on sort keys with `none` as `float("inf")`. -/
def infLe : Option ℚ → Option ℚ → Bool
  | some a, some b => decide (a ≤ b)
  | some _, none => true
  | none, some _ => false
  | none, none => true

/-- `evaluate_routes(G, stations_df, candidate_routes, vehicle_params,
sim_options, sort_by)` with the two parameter dicts flattened into `env`
and `battery_percent_start`.  An unrecognised `sort_by` leaves the list
unsorted, as in the source. -/
def evaluate_routes (env : SimEnv) (candidate_routes : List (List String))
    (battery_percent_start : ℚ) (sort_by : String) : List EvalEntry :=
  let results := candidate_routes.map (fun route =>
    match simulate_single_route env route battery_percent_start with
    | none => ⟨route, false, none⟩
    | some res => ⟨route, true, some res⟩)
  if sort_by == "time" then
    sortStable (fun a b =>
      infLe (evalKey (·.total_time_min) a) (evalKey (·.total_time_min) b)) results
  else if sort_by == "distance" then
    sortStable (fun a b =>
      infLe (evalKey (·.total_distance_km) a) (evalKey (·.total_distance_km) b)) results
  else if sort_by == "charges" then
    sortStable (fun a b =>
      infLe (evalKey (fun r => (r.charges.length : ℚ)) a)
        (evalKey (fun r => (r.charges.length : ℚ)) b)) results
  else results

/-- C9: in this embedding the searches and the path simulator are pure
functions of their inputs — Python's `heapq`, dict insertion order and
`itertools.count` tiebreak are deterministic, and the embedding models them
exactly — so two runs on identical inputs return identical paths, totals
and charging events, definitionally. -/
theorem C9_two_run_determinism :
    (∀ (env : SearchEnv) (start endId : String) (b : ℚ),
      ucs_ev_search env start endId b = ucs_ev_search env start endId b ∧
      astar_ev_search env start endId b = astar_ev_search env start endId b) ∧
    (∀ (env : SimEnv) (route : List String) (b : ℚ),
      simulate_single_route env route b = simulate_single_route env route b) :=
  ⟨fun _ _ _ _ => ⟨rfl, rfl⟩, fun _ _ _ => rfl⟩

/-- C4: when the SOC remaining after a segment equals the safe threshold
exactly (starting SOC = threshold + required percent), neither the search
expansion (`stepNeighbor`, shared by UCS and A*) nor the simulator's
segment step triggers a charge: the search moves across the edge with an
unchanged charge list, and the simulator drives the segment appending no
charging event — both conditions compare with strict `<`. -/
theorem C4_exact_threshold_no_charge :
    (∀ (env : SearchEnv) (s : SearchState) (v : String) (d : ℚ),
      0 ≤ env.safe_threshold_percent →
      s.battery_percent = env.safe_threshold_percent +
        kwh_needed d env.consumption_kwh_per_100km / env.battery_kwh_max * 100 →
      ∃ s', stepNeighbor env s (v, d) = some s' ∧ s'.node = v ∧
        s'.charges = s.charges ∧ s'.battery_percent = env.safe_threshold_percent) ∧
    (∀ (env : SimEnv) (acc : SimAcc) (cur nxt : String) (cr nr : Station),
      stationRow env.stations cur = some cr →
      stationRow env.stations nxt = some nr →
      0 ≤ env.safe_threshold_percent →
      acc.soc = env.safe_threshold_percent +
        kwh_needed (env.hav cr.lat cr.lon nr.lat nr.lon) env.consumption_kwh_per_100km /
          env.battery_kwh_max * 100 →
      ∃ acc', simStep env acc cur nxt = some acc' ∧ acc'.charges = acc.charges ∧
        acc'.soc = env.safe_threshold_percent) := by
  constructor
  · intro env s v d hth hbat
    have h1 : ¬ (kwh_needed d env.consumption_kwh_per_100km / env.battery_kwh_max * 100 >
        s.battery_percent) := by
      rw [hbat]; intro h; linarith
    have h2 : ¬ (s.battery_percent - kwh_needed d env.consumption_kwh_per_100km /
        env.battery_kwh_max * 100 < env.safe_threshold_percent) := by
      rw [hbat]; intro h; linarith
    have h3 : ¬ (s.battery_percent - kwh_needed d env.consumption_kwh_per_100km /
        env.battery_kwh_max * 100 < 0) := by
      rw [hbat]; intro h; linarith
    refine ⟨⟨v, s.battery_percent - kwh_needed d env.consumption_kwh_per_100km /
        env.battery_kwh_max * 100, s.path ++ [v], s.total_distance_km + d,
      s.total_time_min + (if 0 < env.avg_speed_kmh then d / env.avg_speed_kmh * 60 else 0),
      s.charges⟩, ?_, rfl, rfl, ?_⟩
    · simp only [stepNeighbor]
      rw [if_neg h1, if_neg h2, if_neg h3]
    · show s.battery_percent - kwh_needed d env.consumption_kwh_per_100km /
        env.battery_kwh_max * 100 = env.safe_threshold_percent
      rw [hbat]; ring
  · intro env acc cur nxt cr nr hcr hnr hth hsoc
    have h1 : ¬ (kwh_needed (env.hav cr.lat cr.lon nr.lat nr.lon)
        env.consumption_kwh_per_100km / env.battery_kwh_max * 100 > acc.soc) := by
      rw [hsoc]; intro h; linarith
    have h2 : ¬ (acc.soc - kwh_needed (env.hav cr.lat cr.lon nr.lat nr.lon)
        env.consumption_kwh_per_100km / env.battery_kwh_max * 100 <
          env.safe_threshold_percent) := by
      rw [hsoc]; intro h; linarith
    have h3 : ¬ (acc.soc - kwh_needed (env.hav cr.lat cr.lon nr.lat nr.lon)
        env.consumption_kwh_per_100km / env.battery_kwh_max * 100 < -(1 / 1000000)) := by
      rw [hsoc]; intro h; linarith
    refine ⟨⟨acc.soc - kwh_needed (env.hav cr.lat cr.lon nr.lat nr.lon)
        env.consumption_kwh_per_100km / env.battery_kwh_max * 100,
      acc.total_distance + env.hav cr.lat cr.lon nr.lat nr.lon,
      acc.total_driving_time + env.hav cr.lat cr.lon nr.lat nr.lon / env.avg_speed_kmh * 60,
      acc.total_charging_time, acc.charges⟩, ?_, rfl, ?_⟩
    · simp only [simStep, hcr, hnr]
      rw [if_neg h1]
      show (some acc).bind _ = some _
      rw [Option.some_bind]
      rw [if_neg h2]
      show (some acc).bind _ = some _
      rw [Option.some_bind]
      rw [if_neg h3]
    · show acc.soc - kwh_needed (env.hav cr.lat cr.lon nr.lat nr.lon)
        env.consumption_kwh_per_100km / env.battery_kwh_max * 100 =
          env.safe_threshold_percent
      rw [hsoc]; ring

/-- A concrete simulator environment for witnesses (same two stations). -/
def simEnvW : SimEnv where
  sp _ _ := none
  hav := havW
  stations := stationsW
  battery_kwh_max := 100
  consumption_kwh_per_100km := 100
  safe_threshold_percent := 20
  charge_target_percent := 80
  avg_speed_kmh := 60
  nearby_k := 5
  nearby_radius_km := 100

/-- Witness for C4: battery 30% = threshold 20% + required 10% on the 10 km
segment A→B, in both the search expansion and the simulator step. -/
theorem C4_exact_threshold_no_charge_witness :
    (∃ s', stepNeighbor envW ⟨"A", 30, ["A"], 0, 0, []⟩ ("B", 10) = some s' ∧
      s'.node = "B" ∧ s'.charges = [] ∧ s'.battery_percent = 20) ∧
    (∃ acc', simStep simEnvW ⟨30, 0, 0, 0, []⟩ "A" "B" = some acc' ∧
      acc'.charges = [] ∧ acc'.soc = 20) :=
  ⟨C4_exact_threshold_no_charge.1 envW ⟨"A", 30, ["A"], 0, 0, []⟩ "B" 10
      (by show (0 : ℚ) ≤ 20; norm_num)
      (by show (30 : ℚ) = 20 + kwh_needed 10 100 / 100 * 100
          rw [kwh_needed]; norm_num),
    C4_exact_threshold_no_charge.2 simEnvW ⟨30, 0, 0, 0, []⟩ "A" "B"
      ⟨"A", "A", 0, 0, some 50⟩ ⟨"B", "B", 10, 0, none⟩
      (by with_unfolding_all decide) (by with_unfolding_all decide)
      (by show (0 : ℚ) ≤ 20; norm_num)
      (by show (30 : ℚ) = 20 + kwh_needed (havW 0 0 10 0) 100 / 100 * 100
          rw [show havW 0 0 10 0 = 10 from by with_unfolding_all decide, kwh_needed]
          norm_num)⟩

/-- C5: `evaluate_routes` on one infeasible and one feasible candidate, for
every supported sort key and both input orders, returns both candidates,
feasible first, with the infeasible one flagged `feasible = false`. -/
theorem C5_evaluate_routes_ranking (env : SimEnv) (b : ℚ) (ra rb : List String)
    (x : SimResult) (hra : simulate_single_route env ra b = none)
    (hrb : simulate_single_route env rb b = some x)
    (key : String) (hkey : key = "time" ∨ key = "distance" ∨ key = "charges") :
    evaluate_routes env [ra, rb] b key = [⟨rb, true, some x⟩, ⟨ra, false, none⟩] ∧
    evaluate_routes env [rb, ra] b key = [⟨rb, true, some x⟩, ⟨ra, false, none⟩] := by
  rcases hkey with rfl | rfl | rfl <;>
    constructor <;>
      simp [evaluate_routes, hra, hrb, sortStable, insertLe, infLe, evalKey, List.foldl]

/-- Witness for C5: the empty route simulates to `None`, the one-node route
`["A"]` is trivially feasible. -/
theorem C5_evaluate_routes_ranking_witness :
    evaluate_routes simEnvW [[], ["A"]] 50 "time" =
      [⟨["A"], true, some ⟨0, 0, 0, 0, [], true⟩⟩, ⟨[], false, none⟩] ∧
    evaluate_routes simEnvW [["A"], []] 50 "time" =
      [⟨["A"], true, some ⟨0, 0, 0, 0, [], true⟩⟩, ⟨[], false, none⟩] :=
  C5_evaluate_routes_ranking simEnvW 50 [] ["A"] ⟨0, 0, 0, 0, [], true⟩
    (by with_unfolding_all decide) (by with_unfolding_all decide) "time" (Or.inl rfl)

/-- Witness for C7: the two-station graph with `k = 1`. -/
theorem C7_knn_min_degree_witness :
    ((stationsW.map (fun s => s.id)).Nodup ∧ 1 + 1 ≤ stationsW.length) ∧
    ∀ s ∈ stationsW, 1 ≤ (build_graph havW stationsW 200 (some 1) 60).degree s.id :=
  ⟨⟨by decide, by decide⟩,
    C7_knn_min_degree havW stationsW 200 1 60 (by decide) (by decide)⟩

/-! ## `src/simulator.py` — `simulate_along_polyline` -/

/-- The loop accumulator of `simulate_along_polyline`, including the
`itertools.count` used for temporary virtual-node ids. -/
structure PolyAcc where
  soc : ℚ
  total_distance : ℚ
  total_driving_time : ℚ
  total_charging_time : ℚ
  charges : List SimCharge
  detour_polylines : List (List (ℚ × ℚ))
  counter : ℕ
deriving DecidableEq, Repr

/-- The dict returned by `simulate_along_polyline` on success. -/
structure PolyResult where
  total_distance_km : ℚ
  total_driving_time_min : ℚ
  total_charging_time_min : ℚ
  total_time_min : ℚ
  charges : List SimCharge
  detour_polylines : List (List (ℚ × ℚ))
  feasible : Bool
deriving DecidableEq, Repr

/-- Inputs of `simulate_along_polyline`: `sp` is
`nx.shortest_path_length` on the current (mutated) graph; `osrm` is
`_route_distance_and_geom_osrm` when an `osrm_url` is configured (`none`
inner result = the helper's `(None, None)` error return). -/
structure PolyEnv where
  sp : Graph → String → String → Option ℚ
  hav : ℚ → ℚ → ℚ → ℚ → ℚ
  osrm : Option ((ℚ × ℚ) → (ℚ × ℚ) → Option (ℚ × List (ℚ × ℚ)))
  stations : List Station
  battery_kwh_max : ℚ
  consumption_kwh_per_100km : ℚ
  safe_threshold_percent : ℚ
  charge_target_percent : ℚ
  avg_speed_kmh : ℚ
  nearby_k : ℕ
  nearby_radius_km : ℚ
  virtual_k_neighbors : ℕ
  virtual_max_dist_km : ℚ

/-- One candidate of the polyline detour loop (`for sid, approx in
candidates`): OSRM detour preferred when configured, falling back to the
graph shortest path from the temporary node; skipped on lookup failure,
insufficient SOC, or unusable power.  Returns
`(added_time, (sid, detour_dist, charge_min, delta_percent, geometry))`. -/
def polyDetourOption (env : PolyEnv) (g1 : Graph) (tmpNode : String) (p1 : ℚ × ℚ)
    (soc : ℚ) (sid : String) :
    Option (ℚ × String × ℚ × ℚ × ℚ × Option (List (ℚ × ℚ))) :=
  match stationRow env.stations sid with
  | none => none
  | some row =>
    let detour : Option (ℚ × Option (List (ℚ × ℚ))) :=
      match env.osrm with
      | some f =>
        match f p1 (row.lat, row.lon) with
        | some dg => some (dg.1, some dg.2)
        | none =>
          match env.sp g1 tmpNode sid with
          | some spd => some (spd, none)
          | none => none
      | none =>
        match env.sp g1 tmpNode sid with
        | some spd => some (spd, none)
        | none => none
    match detour with
    | none => none
    | some dd =>
      let detour_dist := dd.1
      let need_percent := kwh_needed detour_dist env.consumption_kwh_per_100km /
        env.battery_kwh_max * 100
      if need_percent > soc then none
      else
        match row.power_kw with
        | none => none
        | some power_kw =>
          if power_kw ≤ 0 then none
          else
            let delta := max 0 (env.charge_target_percent - soc)
            let charge_min := charge_time_minutes power_kw
              (env.battery_kwh_max * delta / 100)
            let detour_time := detour_dist / env.avg_speed_kmh * 60
            some (detour_time + charge_min, sid, detour_dist, charge_min, delta, dd.2)

/-- Outcome of one polyline segment: a propagating exception (duplicate
temporary node id), an infeasible `return None`, or the next accumulator. -/
inductive PolyStepOut
  | err (msg : String)
  | stop
  | next (acc : PolyAcc)
deriving DecidableEq, Repr

/-- The first block of the polyline segment loop (`if need_percent >
soc:`): insert a temporary virtual node, pick the best detour-and-charge,
remove the node again.  `need_percent` is the percent required for the
upcoming segment (used by the block's trailing re-check). -/
def polyBlock1 (env : PolyEnv) (g : Graph) (acc : PolyAcc) (p1 : ℚ × ℚ)
    (need_percent : ℚ) : PolyStepOut × Graph :=
  if need_percent > acc.soc then
    let nid := "CUR_TMP_" ++ toString acc.counter
    let acc := { acc with counter := acc.counter + 1 }
    match add_virtual_node env.hav g nid p1.1 p1.2 env.virtual_k_neighbors
        env.virtual_max_dist_km 60 with
    | (some e, gfail) => (.err e, gfail)
    | (none, g1) =>
      let candidates := env.stations.filterMap (fun row =>
        let d := env.hav p1.1 p1.2 row.lat row.lon
        if d ≤ env.nearby_radius_km then some (row.id, d) else none)
      let taken := (sortStable (fun a b => decide (a.2 ≤ b.2)) candidates).take env.nearby_k
      match chooseBest (taken.map (fun sd => polyDetourOption env g1 nid p1 acc.soc sd.1)) with
      | none => (.stop, g1.removeNode nid)
      | some tc =>
        let sid := tc.2.1
        let detour_km := tc.2.2.1
        let charge_min := tc.2.2.2.1
        let delta_percent := tc.2.2.2.2.1
        let geom := tc.2.2.2.2.2
        let soc1 := acc.soc - kwh_needed detour_km env.consumption_kwh_per_100km /
          env.battery_kwh_max * 100
        if soc1 < 0 then (.stop, g1.removeNode nid)
        else
          let arrive := round2 soc1
          let soc2 := min 100 (soc1 + delta_percent)
          let acc' := { acc with
            soc := soc2
            total_distance := acc.total_distance + detour_km
            total_driving_time := acc.total_driving_time + detour_km / env.avg_speed_kmh * 60
            total_charging_time := acc.total_charging_time + charge_min
            charges := acc.charges ++
              [⟨sid, arrive, round2 soc2, round1 charge_min, round2 detour_km⟩]
            detour_polylines := acc.detour_polylines ++
              (match geom with
                | some gpoly => if gpoly.isEmpty then [] else [gpoly]
                | none => []) }
          if need_percent > acc'.soc then (.stop, g1.removeNode nid)
          else (.next acc', g1.removeNode nid)
  else (.next acc, g)

/-- The second (pre-charge) block: inserts and removes its temporary node,
but the body between them is literally `pass` in the source. -/
def polyBlock2 (env : PolyEnv) (g : Graph) (acc : PolyAcc) (p1 : ℚ × ℚ)
    (need_percent : ℚ) : PolyStepOut × Graph :=
  if acc.soc - need_percent < env.safe_threshold_percent then
    let nid := "CUR_TMP_" ++ toString acc.counter
    let acc := { acc with counter := acc.counter + 1 }
    match add_virtual_node env.hav g nid p1.1 p1.2 env.virtual_k_neighbors
        env.virtual_max_dist_km 60 with
    | (some e, gfail) => (.err e, gfail)
    | (none, g2) =>
      let g3 := g2.removeNode nid
      if need_percent > acc.soc then (.stop, g3) else (.next acc, g3)
  else (.next acc, g)

/-- One iteration of `simulate_along_polyline`'s segment loop, threading
the mutable graph. -/
def polyStep (env : PolyEnv) (g : Graph) (acc : PolyAcc) (p1 p2 : ℚ × ℚ) :
    PolyStepOut × Graph :=
  let seg_dist := env.hav p1.1 p1.2 p2.1 p2.2
  let need_percent := kwh_needed seg_dist env.consumption_kwh_per_100km /
    env.battery_kwh_max * 100
  match polyBlock1 env g acc p1 need_percent with
  | (.err e, g') => (.err e, g')
  | (.stop, g') => (.stop, g')
  | (.next acc1, g1') =>
    match polyBlock2 env g1' acc1 p1 need_percent with
    | (.err e, g') => (.err e, g')
    | (.stop, g') => (.stop, g')
    | (.next acc2, g2') =>
      let soc3 := acc2.soc - need_percent
      if soc3 < -(1 / 1000000) then (.stop, g2')
      else (.next { acc2 with
        soc := soc3
        total_distance := acc2.total_distance + seg_dist
        total_driving_time := acc2.total_driving_time + seg_dist / env.avg_speed_kmh * 60 }, g2')

/-- The segment loop of `simulate_along_polyline`. -/
def polyLoop (env : PolyEnv) :
    Graph → PolyAcc → List (ℚ × ℚ) → Except String (Option PolyAcc) × Graph
  | g, acc, p1 :: p2 :: rest =>
    match polyStep env g acc p1 p2 with
    | (.err e, g') => (.error e, g')
    | (.stop, g') => (.ok none, g')
    | (.next acc', g') => polyLoop env g' acc' (p2 :: rest)
  | g, acc, _ => (.ok (some acc), g)

/-- `simulate_along_polyline(G, stations_df, polyline,
battery_percent_start, ...)`, returning the outcome (`error` = a raised
`ValueError` from a duplicate temporary node id; `ok none` = Python's
`None`) together with the final state of the mutated graph. -/
def simulate_along_polyline (env : PolyEnv) (g : Graph) (polyline : List (ℚ × ℚ))
    (battery_percent_start : ℚ) : Except String (Option PolyResult) × Graph :=
  if polyline.isEmpty then (.ok none, g)
  else
    match polyLoop env g ⟨battery_percent_start, 0, 0, 0, [], [], 0⟩ polyline with
    | (.error e, g') => (.error e, g')
    | (.ok none, g') => (.ok none, g')
    | (.ok (some acc), g') =>
      (.ok (some
        { total_distance_km := round3 acc.total_distance,
          total_driving_time_min := round1 acc.total_driving_time,
          total_charging_time_min := round1 acc.total_charging_time,
          total_time_min := round1 (acc.total_driving_time + acc.total_charging_time),
          charges := acc.charges,
          detour_polylines := acc.detour_polylines,
          feasible := true }), g')

/-- Well-formedness networkx guarantees: every edge endpoint is a node. -/
def Graph.WF (g : Graph) : Prop :=
  ∀ e ∈ g.edges, e.1 ∈ g.nodeIds ∧ e.2.1 ∈ g.nodeIds

theorem not_mem_nodeIds_of_hasNode_false {g : Graph} {nid : String}
    (h : g.hasNode nid = false) : nid ∉ g.nodeIds := by
  intro hmem
  obtain ⟨p, hp, hpe⟩ := List.mem_map.mp hmem
  have h' : g.nodes.any (fun q => q.1 == nid) = false := h
  have := List.any_eq_false.mp h' p hp
  simp only [beq_iff_eq] at this
  exact this hpe

theorem add_virtual_node_err {hav : ℚ → ℚ → ℚ → ℚ → ℚ} {g : Graph} {nid : String}
    {lat lon : ℚ} {k : ℕ} {maxd avg : ℚ} {e : String} {g2 : Graph}
    (h : add_virtual_node hav g nid lat lon k maxd avg = (some e, g2)) : g2 = g := by
  unfold add_virtual_node at h
  split at h
  · exact ((Prod.mk.inj h).2).symm
  · exact Option.noConfusion (Prod.mk.inj h).1

theorem add_virtual_node_ok_removeNode {hav : ℚ → ℚ → ℚ → ℚ → ℚ} {g : Graph}
    {nid : String} {lat lon : ℚ} {k : ℕ} {maxd avg : ℚ} {g1 : Graph}
    (hwf : g.WF)
    (h : add_virtual_node hav g nid lat lon k maxd avg = (none, g1)) :
    g1.removeNode nid = g := by
  unfold add_virtual_node at h
  split at h
  · exact Option.noConfusion (Prod.mk.inj h).1
  · next hdup =>
    have hdup' : g.hasNode nid = false := by simpa using hdup
    have hnot : nid ∉ g.nodeIds := not_mem_nodeIds_of_hasNode_false hdup'
    obtain ⟨-, h2⟩ := Prod.mk.inj h
    subst h2
    have hAnodes : (g.addNode nid ⟨nid, lat, lon⟩).nodes =
        g.nodes ++ [(nid, ⟨nid, lat, lon⟩)] := addNode_nodes_fresh _ hdup'
    have hAedges : (g.addNode nid ⟨nid, lat, lon⟩).edges = g.edges :=
      addNode_edges _ _ _
    have hstep : ∀ (h : Graph) (nd : String × ℚ),
        nd ∈ (List.take k (sortStable (fun a b => decide (a.2 ≤ b.2))
          (List.filterMap (fun p =>
            if p.1 == nid then none
            else
              let d := hav lat lon p.2.lat p.2.lon
              if d ≤ maxd then some (p.1, d) else none)
            (g.addNode nid ⟨nid, lat, lon⟩).nodes))) →
        (h.nodes = g.nodes ++ [(nid, (⟨nid, lat, lon⟩ : NodeData))] ∧
          ∃ L, h.edges = g.edges ++ L ∧ ∀ e ∈ L, e.1 = nid) →
        ((h.addEdge nid nd.1 ⟨nd.2, nd.2, travelTime nd.2 avg, false, false⟩).nodes =
            g.nodes ++ [(nid, (⟨nid, lat, lon⟩ : NodeData))] ∧
          ∃ L, (h.addEdge nid nd.1
              ⟨nd.2, nd.2, travelTime nd.2 avg, false, false⟩).edges =
            g.edges ++ L ∧ ∀ e ∈ L, e.1 = nid) := by
      intro h nd _ hPh
      obtain ⟨hn, L, hL, hLall⟩ := hPh
      refine ⟨(addEdge_nodes _ _ _ _).trans hn, ?_⟩
      unfold Graph.addEdge
      split
      · -- update of an existing edge: endpoints are unchanged
        refine ⟨L.map (fun e =>
          if (e.1 == nid && e.2.1 == nd.1) || (e.1 == nd.1 && e.2.1 == nid) then
            (e.1, e.2.1, ⟨nd.2, nd.2, travelTime nd.2 avg, false, false⟩)
          else e), ?_, ?_⟩
        · show h.edges.map _ = _
          rw [hL, List.map_append]
          have hfix : g.edges.map (fun e =>
              if (e.1 == nid && e.2.1 == nd.1) || (e.1 == nd.1 && e.2.1 == nid) then
                (e.1, e.2.1, (⟨nd.2, nd.2, travelTime nd.2 avg, false, false⟩ : EdgeData))
              else e) = g.edges := by
            have hcongr : ∀ e ∈ g.edges,
                (if (e.1 == nid && e.2.1 == nd.1) || (e.1 == nd.1 && e.2.1 == nid) then
                  (e.1, e.2.1, (⟨nd.2, nd.2, travelTime nd.2 avg, false, false⟩ : EdgeData))
                else e) = e := by
              intro e he
              obtain ⟨he1, he2⟩ := hwf e he
              have hne1 : (e.1 == nid) = false := by
                simp only [beq_eq_false_iff_ne, ne_eq]
                intro hc; exact hnot (hc ▸ he1)
              have hne2 : (e.2.1 == nid) = false := by
                simp only [beq_eq_false_iff_ne, ne_eq]
                intro hc; exact hnot (hc ▸ he2)
              simp [hne1, hne2]
            calc g.edges.map _ = g.edges.map id := List.map_congr_left (by
                  intro e he; rw [hcongr e he]; rfl)
              _ = g.edges := List.map_id g.edges
          rw [hfix]
        · intro e' he'
          obtain ⟨e, he, rfl⟩ := List.mem_map.mp he'
          have := hLall e he
          split
          · exact this
          · exact this
      · refine ⟨L ++ [(nid, nd.1, ⟨nd.2, nd.2, travelTime nd.2 avg, false, false⟩)], ?_, ?_⟩
        · show h.edges ++ _ = _
          rw [hL, List.append_assoc]
        · intro e' he'
          rcases List.mem_append.mp he' with h' | h'
          · exact hLall e' h'
          · simp only [List.mem_singleton] at h'
            subst h'
            rfl
    obtain ⟨hn, L, hL, hLall⟩ := foldl_preserve
      (P := fun h : Graph =>
        h.nodes = g.nodes ++ [(nid, (⟨nid, lat, lon⟩ : NodeData))] ∧
        ∃ L, h.edges = g.edges ++ L ∧ ∀ e ∈ L, e.1 = nid)
      (fun (h : Graph) (nd : String × ℚ) =>
        h.addEdge nid nd.1 ⟨nd.2, nd.2, travelTime nd.2 avg, false, false⟩)
      (List.take k (sortStable (fun a b => decide (a.2 ≤ b.2))
        (List.filterMap (fun p =>
          if p.1 == nid then none
          else
            let d := hav lat lon p.2.lat p.2.lon
            if d ≤ maxd then some (p.1, d) else none)
          (g.addNode nid ⟨nid, lat, lon⟩).nodes)))
      (g.addNode nid ⟨nid, lat, lon⟩)
      ⟨hAnodes, [], by rw [hAedges, List.append_nil],
        fun e he => absurd he (List.not_mem_nil e)⟩
      hstep
    unfold Graph.removeNode
    rw [hn, hL]
    have hnodes : (g.nodes ++ [(nid, (⟨nid, lat, lon⟩ : NodeData))]).filter
        (fun p => p.1 != nid) = g.nodes := by
      rw [List.filter_append]
      have h1 : g.nodes.filter (fun p => p.1 != nid) = g.nodes := by
        rw [List.filter_eq_self]
        intro p hp
        simp only [bne_iff_ne, ne_eq]
        intro hc
        exact hnot (hc ▸ List.mem_map_of_mem Prod.fst hp)
      have h2 : List.filter (fun p => p.1 != nid)
          [(nid, (⟨nid, lat, lon⟩ : NodeData))] = [] := by
        simp [List.filter]
      rw [h1, h2, List.append_nil]
    have hedges : (g.edges ++ L).filter (fun e => e.1 != nid && e.2.1 != nid) =
        g.edges := by
      rw [List.filter_append]
      have h1 : g.edges.filter (fun e => e.1 != nid && e.2.1 != nid) = g.edges := by
        rw [List.filter_eq_self]
        intro e he
        obtain ⟨he1, he2⟩ := hwf e he
        have hne1 : e.1 ≠ nid := fun hc => hnot (hc ▸ he1)
        have hne2 : e.2.1 ≠ nid := fun hc => hnot (hc ▸ he2)
        simp [hne1, hne2]
      have h2 : L.filter (fun e => e.1 != nid && e.2.1 != nid) = [] := by
        rw [List.filter_eq_nil]
        intro e he
        have := hLall e he
        simp [this]
      rw [h1, h2, List.append_nil]
    rw [hnodes, hedges]

theorem polyBlock1_graph (env : PolyEnv) {g : Graph} (hwf : g.WF)
    (acc : PolyAcc) (p1 : ℚ × ℚ) (need_percent : ℚ) :
    (polyBlock1 env g acc p1 need_percent).2 = g := by
  unfold polyBlock1
  split
  · dsimp only
    split
    · next heq => exact add_virtual_node_err heq
    · next heq =>
      have hrm := add_virtual_node_ok_removeNode hwf heq
      split
      · exact hrm
      · split
        · exact hrm
        · split
          · exact hrm
          · exact hrm
  · rfl

theorem polyBlock2_graph (env : PolyEnv) {g : Graph} (hwf : g.WF)
    (acc : PolyAcc) (p1 : ℚ × ℚ) (need_percent : ℚ) :
    (polyBlock2 env g acc p1 need_percent).2 = g := by
  unfold polyBlock2
  split
  · dsimp only
    split
    · next heq => exact add_virtual_node_err heq
    · next heq =>
      have hrm := add_virtual_node_ok_removeNode hwf heq
      split
      · exact hrm
      · exact hrm
  · rfl

theorem polyStep_graph (env : PolyEnv) {g : Graph} (hwf : g.WF)
    (acc : PolyAcc) (p1 p2 : ℚ × ℚ) :
    (polyStep env g acc p1 p2).2 = g := by
  unfold polyStep
  dsimp only
  split
  · next e g' heq =>
    have := polyBlock1_graph env hwf acc p1
      (kwh_needed (env.hav p1.1 p1.2 p2.1 p2.2) env.consumption_kwh_per_100km /
        env.battery_kwh_max * 100)
    rw [heq] at this
    exact this
  · next e g' heq =>
    have := polyBlock1_graph env hwf acc p1
      (kwh_needed (env.hav p1.1 p1.2 p2.1 p2.2) env.consumption_kwh_per_100km /
        env.battery_kwh_max * 100)
    rw [heq] at this
    exact this
  · next acc1 g1' heq =>
    have hg1 : g1' = g := by
      have := polyBlock1_graph env hwf acc p1
        (kwh_needed (env.hav p1.1 p1.2 p2.1 p2.2) env.consumption_kwh_per_100km /
          env.battery_kwh_max * 100)
      rw [heq] at this
      exact this
    rw [hg1]
    split
    · next e g' heq2 =>
      have := polyBlock2_graph env hwf acc1 p1
        (kwh_needed (env.hav p1.1 p1.2 p2.1 p2.2) env.consumption_kwh_per_100km /
          env.battery_kwh_max * 100)
      rw [heq2] at this
      exact this
    · next e g' heq2 =>
      have := polyBlock2_graph env hwf acc1 p1
        (kwh_needed (env.hav p1.1 p1.2 p2.1 p2.2) env.consumption_kwh_per_100km /
          env.battery_kwh_max * 100)
      rw [heq2] at this
      exact this
    · next acc2 g2' heq2 =>
      have hg2 : g2' = g := by
        have := polyBlock2_graph env hwf acc1 p1
          (kwh_needed (env.hav p1.1 p1.2 p2.1 p2.2) env.consumption_kwh_per_100km /
            env.battery_kwh_max * 100)
        rw [heq2] at this
        exact this
      rw [hg2]
      split
      · rfl
      · rfl

theorem polyLoop_graph (env : PolyEnv) :
    ∀ (pts : List (ℚ × ℚ)) (g : Graph), g.WF → ∀ (acc : PolyAcc),
      (polyLoop env g acc pts).2 = g := by
  intro pts
  induction pts with
  | nil => intro g _ acc; rfl
  | cons p1 rest ih =>
    intro g hwf acc
    cases rest with
    | nil => rfl
    | cons p2 rest' =>
      show (match polyStep env g acc p1 p2 with
        | (.err e, g') => (Except.error e, g')
        | (.stop, g') => (Except.ok none, g')
        | (.next acc', g') => polyLoop env g' acc' (p2 :: rest')).2 = g
      have hstep := polyStep_graph env hwf acc p1 p2
      split
      · next e g' heq => rw [heq] at hstep; exact hstep
      · next g' heq => rw [heq] at hstep; exact hstep
      · next acc' g' heq =>
        rw [heq] at hstep
        have hg : g' = g := hstep
        rw [hg]
        exact ih g hwf acc'

/-- C6: `simulate_along_polyline` restores the graph exactly: every
temporary virtual node it inserts is removed before the next segment, and
on every outcome — feasible, infeasible (`None`), or a propagating
duplicate-id `ValueError` — the final node and edge sets equal the initial
ones. -/
theorem C6_polyline_graph_restored (env : PolyEnv) (g : Graph) (hwf : g.WF)
    (polyline : List (ℚ × ℚ)) (battery_percent_start : ℚ) :
    (simulate_along_polyline env g polyline battery_percent_start).2 = g := by
  unfold simulate_along_polyline
  split
  · rfl
  · have hloop := polyLoop_graph env polyline g hwf
      ⟨battery_percent_start, 0, 0, 0, [], [], 0⟩
    split
    · next e g' heq => rw [heq] at hloop; exact hloop
    · next g' heq => rw [heq] at hloop; exact hloop
    · next acc g' heq => rw [heq] at hloop; exact hloop

/-- A concrete polyline environment for witnesses (no OSRM, graph shortest
paths always fail). -/
def polyEnvW : PolyEnv where
  sp _ _ _ := none
  hav := havW
  osrm := none
  stations := stationsW
  battery_kwh_max := 100
  consumption_kwh_per_100km := 100
  safe_threshold_percent := 20
  charge_target_percent := 80
  avg_speed_kmh := 60
  nearby_k := 5
  nearby_radius_km := 100
  virtual_k_neighbors := 6
  virtual_max_dist_km := 200

/-- Witness for C6 on the two-station graph and a two-point polyline. -/
theorem C6_polyline_graph_restored_witness :
    (build_graph havW stationsW 200 (some 1) 60).WF ∧
    (simulate_along_polyline polyEnvW (build_graph havW stationsW 200 (some 1) 60)
      [(0, 0), (3, 0)] 50).2 = build_graph havW stationsW 200 (some 1) 60 :=
  ⟨by
    intro e he
    simp only [show (build_graph havW stationsW 200 (some 1) 60).edges =
      [("A", "B", ⟨10, 10, some (1 / 6), false, false⟩)] from by with_unfolding_all decide]
      at he
    simp only [List.mem_singleton] at he
    subst he
    refine ⟨?_, ?_⟩ <;> with_unfolding_all decide,
    C6_polyline_graph_restored polyEnvW (build_graph havW stationsW 200 (some 1) 60)
      (by
        intro e he
        simp only [show (build_graph havW stationsW 200 (some 1) 60).edges =
          [("A", "B", ⟨10, 10, some (1 / 6), false, false⟩)] from by with_unfolding_all decide]
          at he
        simp only [List.mem_singleton] at he
        subst he
        refine ⟨?_, ?_⟩ <;> with_unfolding_all decide)
      [(0, 0), (3, 0)] 50⟩

/-- Simulator environment with safe threshold 45% for the C1
counterexample. -/
def simEnvC : SimEnv where
  sp _ _ := none
  hav := havW
  stations := stationsW
  battery_kwh_max := 100
  consumption_kwh_per_100km := 100
  safe_threshold_percent := 45
  charge_target_percent := 80
  avg_speed_kmh := 60
  nearby_k := 5
  nearby_radius_km := 100

/-- C1 counterexample: threshold 45%, SOC 50%, one 10 km segment from "A"
(power 50 kW).  Rule 3's target would be `min(max(45 + 10, 50), 80) = 55`,
but `simulate_single_route` records a charge leaving at SOC 80
(= `charge_target_percent`), so the simulator does not apply the search's
rule-3 charging decision. -/
theorem C1_counterexample :
    ((simulate_single_route simEnvC ["A", "B"] 50).map
        (fun r => r.charges.map (fun c => c.leave_soc))) = some [80] ∧
    min (max ((45 : ℚ) + 10) 50) 80 = 55 ∧ (80 : ℚ) ≠ 55 :=
  ⟨by with_unfolding_all decide, by norm_num, by norm_num⟩

/-- C1 amended: when remaining SOC would fall below the threshold,
(a) `simulate_single_route` charges the current station to
`charge_target_percent` (capped at 100) — not to the rule-3 target — and
(b) `simulate_along_polyline`'s pre-charge block performs no charging at
all: SOC decreases only by the driven segment and the charge list is
unchanged. -/
theorem C1_amended_simulator_charging :
    (∀ (env : SimEnv) (acc : SimAcc) (cur nxt : String) (cr nr : Station) (pk : ℚ),
      stationRow env.stations cur = some cr →
      stationRow env.stations nxt = some nr →
      ¬ (kwh_needed (env.hav cr.lat cr.lon nr.lat nr.lon) env.consumption_kwh_per_100km /
          env.battery_kwh_max * 100 > acc.soc) →
      acc.soc - kwh_needed (env.hav cr.lat cr.lon nr.lat nr.lon)
          env.consumption_kwh_per_100km / env.battery_kwh_max * 100 <
        env.safe_threshold_percent →
      cr.power_kw = some pk →
      pk > 0 →
      env.charge_target_percent > acc.soc →
      ¬ (min 100 env.charge_target_percent -
          kwh_needed (env.hav cr.lat cr.lon nr.lat nr.lon) env.consumption_kwh_per_100km /
            env.battery_kwh_max * 100 < -(1 / 1000000)) →
      ∃ acc', simStep env acc cur nxt = some acc' ∧
        acc'.charges = acc.charges ++
          [⟨cur, round2 acc.soc, round2 (min 100 env.charge_target_percent),
            round1 (charge_time_minutes pk
              (env.battery_kwh_max * (env.charge_target_percent - acc.soc) / 100)), 0⟩] ∧
        acc'.soc = min 100 env.charge_target_percent -
          kwh_needed (env.hav cr.lat cr.lon nr.lat nr.lon) env.consumption_kwh_per_100km /
            env.battery_kwh_max * 100) ∧
    (∀ (env : PolyEnv) (g : Graph) (acc : PolyAcc) (p1 p2 : ℚ × ℚ),
      g.WF →
      (add_virtual_node env.hav g ("CUR_TMP_" ++ toString acc.counter) p1.1 p1.2
        env.virtual_k_neighbors env.virtual_max_dist_km 60).1 = none →
      ¬ (kwh_needed (env.hav p1.1 p1.2 p2.1 p2.2) env.consumption_kwh_per_100km /
          env.battery_kwh_max * 100 > acc.soc) →
      acc.soc - kwh_needed (env.hav p1.1 p1.2 p2.1 p2.2) env.consumption_kwh_per_100km /
          env.battery_kwh_max * 100 < env.safe_threshold_percent →
      ¬ (acc.soc - kwh_needed (env.hav p1.1 p1.2 p2.1 p2.2) env.consumption_kwh_per_100km /
          env.battery_kwh_max * 100 < -(1 / 1000000)) →
      polyStep env g acc p1 p2 =
        (.next ⟨acc.soc - kwh_needed (env.hav p1.1 p1.2 p2.1 p2.2)
            env.consumption_kwh_per_100km / env.battery_kwh_max * 100,
          acc.total_distance + env.hav p1.1 p1.2 p2.1 p2.2,
          acc.total_driving_time + env.hav p1.1 p1.2 p2.1 p2.2 / env.avg_speed_kmh * 60,
          acc.total_charging_time, acc.charges, acc.detour_polylines,
          acc.counter + 1⟩, g)) := by
  constructor
  · intro env acc cur nxt cr nr pk hcr hnr h1 h2 hpw hpk htar hdr
    have hsimp : acc.soc + (env.charge_target_percent - acc.soc) =
        env.charge_target_percent := by ring
    have hpre : preCharge env cur cr acc = some
        { acc with
          soc := min 100 (acc.soc + (env.charge_target_percent - acc.soc))
          total_charging_time := acc.total_charging_time + charge_time_minutes pk
            (env.battery_kwh_max * (env.charge_target_percent - acc.soc) / 100)
          charges := acc.charges ++ [⟨cur, round2 acc.soc,
            round2 (min 100 (acc.soc + (env.charge_target_percent - acc.soc))),
            round1 (charge_time_minutes pk
              (env.battery_kwh_max * (env.charge_target_percent - acc.soc) / 100)), 0⟩] } := by
      simp only [preCharge, hpw]
      rw [if_pos hpk, if_pos htar]
    have hdr' : ¬ (min 100 (acc.soc + (env.charge_target_percent - acc.soc)) -
        kwh_needed (env.hav cr.lat cr.lon nr.lat nr.lon) env.consumption_kwh_per_100km /
          env.battery_kwh_max * 100 < -(1 / 1000000)) := by
      rw [hsimp]
      exact hdr
    refine ⟨⟨min 100 (acc.soc + (env.charge_target_percent - acc.soc)) -
        kwh_needed (env.hav cr.lat cr.lon nr.lat nr.lon) env.consumption_kwh_per_100km /
          env.battery_kwh_max * 100,
      acc.total_distance + env.hav cr.lat cr.lon nr.lat nr.lon,
      acc.total_driving_time + env.hav cr.lat cr.lon nr.lat nr.lon / env.avg_speed_kmh * 60,
      acc.total_charging_time + charge_time_minutes pk
        (env.battery_kwh_max * (env.charge_target_percent - acc.soc) / 100),
      acc.charges ++ [⟨cur, round2 acc.soc,
        round2 (min 100 (acc.soc + (env.charge_target_percent - acc.soc))),
        round1 (charge_time_minutes pk
          (env.battery_kwh_max * (env.charge_target_percent - acc.soc) / 100)), 0⟩]⟩,
      ?_, ?_, ?_⟩
    · show simStep env acc cur nxt = some _
      simp only [simStep, hcr, hnr]
      rw [if_neg h1, Option.some_bind, if_pos h2]
      simp only [hpre]
      rw [Option.some_bind, if_neg hdr']
    · show _ ++ _ = _
      rw [hsimp]
    · show min 100 (acc.soc + (env.charge_target_percent - acc.soc)) - _ = _
      rw [hsimp]
  · intro env g acc p1 p2 hwf hfst h1 h2 hdr
    obtain ⟨g2, hadd⟩ : ∃ g2, add_virtual_node env.hav g
        ("CUR_TMP_" ++ toString acc.counter) p1.1 p1.2
        env.virtual_k_neighbors env.virtual_max_dist_km 60 = (none, g2) :=
      ⟨(add_virtual_node env.hav g ("CUR_TMP_" ++ toString acc.counter) p1.1 p1.2
          env.virtual_k_neighbors env.virtual_max_dist_km 60).2,
        by rw [← hfst]⟩
    have hrm := add_virtual_node_ok_removeNode hwf hadd
    have hb1 : polyBlock1 env g acc p1
        (kwh_needed (env.hav p1.1 p1.2 p2.1 p2.2) env.consumption_kwh_per_100km /
          env.battery_kwh_max * 100) = (.next acc, g) := by
      unfold polyBlock1
      rw [if_neg h1]
    have hb2 : polyBlock2 env g acc p1
        (kwh_needed (env.hav p1.1 p1.2 p2.1 p2.2) env.consumption_kwh_per_100km /
          env.battery_kwh_max * 100) =
        (.next { acc with counter := acc.counter + 1 }, g) := by
      unfold polyBlock2
      rw [if_pos h2]
      dsimp only
      simp only [hadd]
      rw [if_neg h1, hrm]
    show (match polyBlock1 env g acc p1
        (kwh_needed (env.hav p1.1 p1.2 p2.1 p2.2) env.consumption_kwh_per_100km /
          env.battery_kwh_max * 100) with
      | (.err e, g') => (PolyStepOut.err e, g')
      | (.stop, g') => (PolyStepOut.stop, g')
      | (.next acc1, g1') => _) = _
    simp only [hb1]
    simp only [hb2]
    rw [if_neg hdr]

theorem buildW_WF : (build_graph havW stationsW 200 (some 1) 60).WF := by
  intro e he
  simp only [show (build_graph havW stationsW 200 (some 1) 60).edges =
    [("A", "B", ⟨10, 10, some (1 / 6), false, false⟩)] from by with_unfolding_all decide]
    at he
  simp only [List.mem_singleton] at he
  subst he
  refine ⟨?_, ?_⟩ <;> with_unfolding_all decide

/-- Witness for the amended C1: (a) threshold 45, SOC 50, the simulator
charges station "A" to 80; (b) threshold 20, SOC 22, a 3 km polyline
segment with the pre-charge block entered: no charge happens. -/
theorem C1_amended_simulator_charging_witness :
    (∃ acc', simStep simEnvC ⟨50, 0, 0, 0, []⟩ "A" "B" = some acc' ∧
      acc'.charges = ([] : List SimCharge) ++
        [⟨"A", round2 50, round2 (min 100 simEnvC.charge_target_percent),
          round1 (charge_time_minutes 50
            (simEnvC.battery_kwh_max * (simEnvC.charge_target_percent - 50) / 100)), 0⟩] ∧
      acc'.soc = min 100 simEnvC.charge_target_percent -
        kwh_needed (simEnvC.hav 0 0 10 0) simEnvC.consumption_kwh_per_100km /
          simEnvC.battery_kwh_max * 100) ∧
    polyStep polyEnvW (build_graph havW stationsW 200 (some 1) 60)
        ⟨22, 0, 0, 0, [], [], 0⟩ (0, 0) (3, 0) =
      (.next ⟨(22 : ℚ) - kwh_needed (polyEnvW.hav 0 0 3 0)
          polyEnvW.consumption_kwh_per_100km / polyEnvW.battery_kwh_max * 100,
        0 + polyEnvW.hav 0 0 3 0,
        0 + polyEnvW.hav 0 0 3 0 / polyEnvW.avg_speed_kmh * 60,
        0, [], [], 0 + 1⟩, build_graph havW stationsW 200 (some 1) 60) :=
  ⟨C1_amended_simulator_charging.1 simEnvC ⟨50, 0, 0, 0, []⟩ "A" "B"
      ⟨"A", "A", 0, 0, some 50⟩ ⟨"B", "B", 10, 0, none⟩ 50
      (by with_unfolding_all decide) (by with_unfolding_all decide)
      (by with_unfolding_all decide) (by with_unfolding_all decide)
      rfl (by norm_num) (by with_unfolding_all decide) (by with_unfolding_all decide),
    C1_amended_simulator_charging.2 polyEnvW
      (build_graph havW stationsW 200 (some 1) 60) ⟨22, 0, 0, 0, [], [], 0⟩ (0, 0) (3, 0)
      buildW_WF (by with_unfolding_all decide) (by with_unfolding_all decide)
      (by with_unfolding_all decide) (by with_unfolding_all decide)⟩

end EV
